import Mathlib

/-!
# Verification of the WooCommerce product-sync service

A shallow embedding, in Lean 4, of the synchronization core of the
`woo-commerce-sync` repository: webhook signature verification
(`app/utils/webhook_verification.py`), credential encryption
(`app/utils/encryption.py` and the hybrid properties of `app/models.py`),
the product upsert engine and bulk sync driver
(`app/services/product_sync.py`), the reconciliation endpoint
(`app/routers/sync.py`), and the daily scheduler job
(`app/services/scheduler.py`).

Bytes are modelled as `Nat` values (each < 256), machine words as `Nat`
with explicit reduction modulo `2 ^ 32`, the product table as a list of
rows, and the remote WooCommerce API as explicit page data passed to the
drivers.  External effects (HTTP, logging, clock) are modelled by
parameters: the clock is a `Nat` passed to every operation that stamps a
row, and a page fetch that raises in Python is an `Except.error` page.
-/

namespace WooSync

/-- Raw bytes (each entry is one byte, `< 256`). -/
abbrev Bytes := List Nat

/-! ## SHA-256 (`hashlib.sha256`)

A direct executable implementation of FIPS 180-4 SHA-256 over byte lists,
with 32-bit words as `Nat` reduced mod `2 ^ 32`. -/

/-- Reduce to a 32-bit word. -/
def w32 (x : Nat) : Nat := x % 4294967296

/-- Rotate a 32-bit word right by `n`. -/
def rotr (n x : Nat) : Nat := w32 ((x >>> n) ||| (x <<< (32 - n)))

/-- SHA-256 `Ch` function. -/
def ch (x y z : Nat) : Nat := (x &&& y) ^^^ ((x ^^^ 4294967295) &&& z)

/-- SHA-256 `Maj` function. -/
def maj (x y z : Nat) : Nat := (x &&& y) ^^^ (x &&& z) ^^^ (y &&& z)

/-- SHA-256 big sigma 0. -/
def bigS0 (x : Nat) : Nat := rotr 2 x ^^^ rotr 13 x ^^^ rotr 22 x

/-- SHA-256 big sigma 1. -/
def bigS1 (x : Nat) : Nat := rotr 6 x ^^^ rotr 11 x ^^^ rotr 25 x

/-- SHA-256 small sigma 0. -/
def smallS0 (x : Nat) : Nat := rotr 7 x ^^^ rotr 18 x ^^^ (x >>> 3)

/-- SHA-256 small sigma 1. -/
def smallS1 (x : Nat) : Nat := rotr 17 x ^^^ rotr 19 x ^^^ (x >>> 10)

/-- The 64 SHA-256 round constants, written in decimal. -/
def shaK : List Nat :=
  [1116352408, 1899447441, 3049323471, 3921009573, 961987163,
   1508970993, 2453635748, 2870763221, 3624381080, 310598401,
   607225278, 1426881987, 1925078388, 2162078206, 2614888103,
   3248222580, 3835390401, 4022224774, 264347078, 604807628,
   770255983, 1249150122, 1555081692, 1996064986, 2554220882,
   2821834349, 2952996808, 3210313671, 3336571891, 3584528711,
   113926993, 338241895, 666307205, 773529912, 1294757372,
   1396182291, 1695183700, 1986661051, 2177026350, 2456956037,
   2730485921, 2820302411, 3259730800, 3345764771, 3516065817,
   3600352804, 4094571909, 275423344, 430227734, 506948616,
   659060556, 883997877, 958139571, 1322822218, 1537002063,
   1747873779, 1955562222, 2024104815, 2227730452, 2361852424,
   2428436474, 2756734187, 3204031479, 3329325298]

/-- The SHA-256 initial hash state, written in decimal. -/
def shaH0 : List Nat :=
  [1779033703, 3144134277, 1013904242, 2773480762,
   1359893119, 2600822924, 528734635, 1541459225]

/-- `v` as `n` big-endian bytes. -/
def toBytesBE (n v : Nat) : Bytes :=
  (List.range n).map (fun i => (v >>> (8 * (n - 1 - i))) % 256)

/-- FIPS 180-4 padding: append `0x80`, zeros, and the 64-bit bit length. -/
def padMessage (msg : Bytes) : Bytes :=
  msg ++ [0x80] ++ List.replicate ((119 - msg.length % 64) % 64) 0
      ++ toBytesBE 8 (msg.length * 8)

/-- Group bytes into big-endian 32-bit words. -/
def toWordsBE : Bytes → List Nat
  | a :: b :: c :: d :: rest =>
      ((a <<< 24) ||| (b <<< 16) ||| (c <<< 8) ||| d) :: toWordsBE rest
  | _ => []

/-- Extend the message schedule; `acc` holds the words produced so far,
newest first. -/
def scheduleAux : Nat → List Nat → List Nat
  | 0, acc => acc.reverse
  | n + 1, acc =>
      let word := w32 (smallS1 (acc.getD 1 0) + acc.getD 6 0
                        + smallS0 (acc.getD 14 0) + acc.getD 15 0)
      scheduleAux n (word :: acc)

/-- The 64-word message schedule of one chunk. -/
def schedule (ws : List Nat) : List Nat := scheduleAux 48 ws.reverse

/-- One SHA-256 compression round: `kw` is the pair of round constant and
schedule word, the state is the eight working variables `a..h`. -/
def compressStep (st : List Nat) (kw : Nat × Nat) : List Nat :=
  match st with
  | [a, b, c, d, e, f, g, h] =>
      let t1 := w32 (h + bigS1 e + ch e f g + kw.1 + kw.2)
      let t2 := w32 (bigS0 a + maj a b c)
      [w32 (t1 + t2), a, b, c, w32 (d + t1), e, f, g]
  | other => other

/-- Process one 64-byte chunk against the running hash state. -/
def processChunk (hs : List Nat) (chunk : Bytes) : List Nat :=
  let st := ((shaK.zip (schedule (toWordsBE chunk))).foldl compressStep) hs
  (hs.zip st).map (fun p => w32 (p.1 + p.2))

/-- Split a byte list into 64-byte chunks; the fuel (instantiated as the
list length, which bounds the chunk count) keeps the recursion structural
so that the kernel can evaluate it. -/
def chunks64Aux : Nat → Bytes → List Bytes
  | 0, _ => []
  | _ + 1, [] => []
  | fuel + 1, l => l.take 64 :: chunks64Aux fuel (l.drop 64)

/-- Split a byte list into 64-byte chunks. -/
def chunks64 (l : Bytes) : List Bytes := chunks64Aux l.length l

/-- SHA-256 of a byte list, as the 32 digest bytes. -/
def sha256 (msg : Bytes) : Bytes :=
  (((chunks64 (padMessage msg)).foldl processChunk shaH0).map (toBytesBE 4)).flatten

/-! ## HMAC-SHA256 (`hmac.new(..., hashlib.sha256)`) -/

/-- RFC 2104 HMAC with SHA-256 (block size 64 bytes). -/
def hmacSha256 (key msg : Bytes) : Bytes :=
  let k0 := if key.length > 64 then sha256 key else key
  let kp := k0 ++ List.replicate (64 - k0.length) 0
  sha256 ((kp.map (fun b => b ^^^ 0x5c)) ++
    sha256 ((kp.map (fun b => b ^^^ 0x36)) ++ msg))

/-! ## Base64 (`base64.b64encode`) -/

/-- The standard base64 alphabet. -/
def base64Table : List Char :=
  "ABCDEFGHIJKLMNOPQRSTUVWXYZabcdefghijklmnopqrstuvwxyz0123456789+/".toList

/-- The base64 character for a 6-bit group. -/
def b64c (n : Nat) : Char := base64Table.getD n 'A'

/-- Standard base64 encoding of a byte list, with `=` padding. -/
def base64Chars : Bytes → List Char
  | a :: b :: c :: rest =>
      b64c (a >>> 2) :: b64c (((a &&& 3) <<< 4) ||| (b >>> 4)) ::
      b64c (((b &&& 15) <<< 2) ||| (c >>> 6)) :: b64c (c &&& 63) ::
      base64Chars rest
  | [a, b] =>
      [b64c (a >>> 2), b64c (((a &&& 3) <<< 4) ||| (b >>> 4)),
       b64c ((b &&& 15) <<< 2), '=']
  | [a] => [b64c (a >>> 2), b64c ((a &&& 3) <<< 4), '=', '=']
  | [] => []

/-- Standard base64 encoding as a string. -/
def base64Encode (bs : Bytes) : String := String.mk (base64Chars bs)

/-! ## Webhook signature verification
(`app/utils/webhook_verification.py`, `verify_woocommerce_webhook`)

The Python function takes the raw body `bytes`, the signature header
string, and the secret string; the secret is used as its UTF-8 bytes
(`secret.encode('utf-8')`), modelled here as the secret already in byte
form — the empty Python string corresponds to the empty byte list. -/

/-- `base64(HMAC-SHA256(payload, secret))`, the expected signature computed
at `webhook_verification.py` lines 41-47. -/
def expected_signature (secret payload : Bytes) : String :=
  base64Encode (hmacSha256 secret payload)

/-- `verify_woocommerce_webhook`: false on missing signature or secret,
otherwise compare the expected signature with the provided one
(`hmac.compare_digest` is semantically string equality; its constant-time
execution is a timing property outside this embedding).  The Python
`try/except` returning `False` on internal error has no residue here: the
modelled computation is total. -/
def verify_woocommerce_webhook (payload : Bytes) (signature : String)
    (secret : Bytes) : Bool :=
  if signature = "" || secret = [] then false
  else expected_signature secret payload == signature

/-! ## Data model (`app/models.py`)

Timestamps produced locally (`func.now()`, `datetime.now()`) are modelled
as `Nat` clock values supplied by the caller; remote timestamps travel as
their payload strings.  JSONB category/tag entries are opaque passthrough
values, modelled as strings. -/

/-- A row of `woocommerce_stores` (`WooCommerceStore` in `models.py`); only
the columns the synchronization core reads.  `consumer_key` /
`consumer_secret` live in the encryption section below. -/
structure WooCommerceStore where
  id : Int
  merchant_id : String
  store_url : String
  is_active : Int
  is_verified : Int
  last_synced_at : Option Nat
deriving Repr, DecidableEq, Inhabited

/-- A WooCommerce product payload: the dict fields that
`parse_woocommerce_product` and the sync drivers read.  A payload with no
`id` would violate the `NOT NULL` constraint on `wc_product_id` and is not
modelled; `get` of the remaining keys returning `None`/missing is an
`Option`. -/
structure ProductPayload where
  id : Int
  name : Option String
  slug : Option String
  sku : Option String
  type : Option String
  status : Option String
  price : Option String
  regular_price : Option String
  sale_price : Option String
  categories : List String
  tags : List String
  date_created : Option String
  date_modified : Option String
deriving Repr, DecidableEq, Inhabited

/-- A row of `products` (`Product` in `models.py`).  `raw_data` is the
verbatim payload; `embedding` is an optional vector (entries opaque,
modelled as `Int`); `is_deleted` is the integer soft-delete flag. -/
structure ProductRow where
  wc_product_id : Int
  store_id : Int
  merchant_id : String
  name : Option String
  slug : Option String
  sku : Option String
  type : Option String
  status : Option String
  price : Option String
  regular_price : Option String
  sale_price : Option String
  categories : List String
  tags : List String
  wc_created_at : Option String
  wc_modified_at : Option String
  raw_data : ProductPayload
  embedding : Option (List Int)
  is_deleted : Int
  deleted_at : Option Nat
  synced_at : Option Nat
  created_at : Option Nat
  updated_at : Option Nat
deriving Repr, DecidableEq, Inhabited

/-- The product table, a list of rows.  The `UNIQUE` index on
`wc_product_id` is the invariant `(db.map ProductRow.wc_product_id).Nodup`,
preserved by the operations below. -/
abbrev ProductDB := List ProductRow

/-! ## Product upsert engine (`app/services/product_sync.py`) -/

/-- `parse_datetime`: ISO-8601 parsing of a WooCommerce datetime string.
The embedding keeps the parse result abstract as the source string itself
(all claims compare parse results only for equality, and the parse is a
pure function of the string); `None` stays `none`. -/
def parse_datetime (date_string : Option String) : Option String :=
  date_string

/-- The dict returned by `parse_woocommerce_product`, plus the `store_id`,
`merchant_id` and optional `embedding` entries that `upsert_product` adds
before building the insert statement.  `embedding = none` covers both the
key being absent (generation not requested, or the `try` block raised) and
`generate_embedding` having returned `None`. -/
structure ParsedProduct where
  wc_product_id : Int
  store_id : Int
  merchant_id : String
  name : Option String
  slug : Option String
  sku : Option String
  type : Option String
  status : Option String
  price : Option String
  regular_price : Option String
  sale_price : Option String
  categories : List String
  tags : List String
  wc_created_at : Option String
  wc_modified_at : Option String
  raw_data : ProductPayload
  embedding : Option (List Int)
deriving Repr, DecidableEq

/-- `parse_woocommerce_product` followed by the `store_id` / `merchant_id`
assignment in `upsert_product`; `embedding` is the outcome of the
embedding `try` block, supplied by the caller (the embedding provider is
external). -/
def parse_woocommerce_product (store : WooCommerceStore)
    (product_data : ProductPayload) (embedding : Option (List Int)) :
    ParsedProduct :=
  { wc_product_id := product_data.id
    store_id := store.id
    merchant_id := store.merchant_id
    name := product_data.name
    slug := product_data.slug
    sku := product_data.sku
    type := product_data.type
    status := product_data.status
    price := product_data.price
    regular_price := product_data.regular_price
    sale_price := product_data.sale_price
    categories := product_data.categories
    tags := product_data.tags
    wc_created_at := parse_datetime product_data.date_created
    wc_modified_at := parse_datetime product_data.date_modified
    raw_data := product_data
    embedding := embedding }

/-- Python truthiness of `parsed_data.get('embedding')`: true exactly for a
non-empty vector. -/
def embTruthy : Option (List Int) → Bool
  | some (_ :: _) => true
  | _ => false

/-- The `ON CONFLICT DO UPDATE` set of `upsert_product` applied to the
existing row: overwrite the display fields, `wc_modified_at` and
`raw_data`, clear `is_deleted` / `deleted_at`, refresh `synced_at` /
`updated_at`, and overwrite `embedding` only when the update set contains
the key, i.e. when `parsed_data.get('embedding')` is truthy.  `store_id`,
`merchant_id`, `wc_created_at` and `created_at` are not in the set and
keep the existing row's values. -/
def apply_update_set (parsed : ParsedProduct) (now : Nat) (r : ProductRow) :
    ProductRow :=
  { r with
    name := parsed.name
    slug := parsed.slug
    sku := parsed.sku
    type := parsed.type
    status := parsed.status
    price := parsed.price
    regular_price := parsed.regular_price
    sale_price := parsed.sale_price
    categories := parsed.categories
    tags := parsed.tags
    wc_modified_at := parsed.wc_modified_at
    raw_data := parsed.raw_data
    is_deleted := 0
    deleted_at := none
    synced_at := some now
    updated_at := some now
    embedding := if embTruthy parsed.embedding then parsed.embedding
                 else r.embedding }

/-- The row created by the insert branch of the upsert
(`insert(Product).values(**parsed_data)` plus the column defaults of
`models.py`): `is_deleted` defaults to `0`, `synced_at` and `created_at`
to `now()` (server defaults), and `updated_at` has only an `onupdate`
default, so it is `NULL` on insert. -/
def insert_values (parsed : ParsedProduct) (now : Nat) : ProductRow :=
  { wc_product_id := parsed.wc_product_id
    store_id := parsed.store_id
    merchant_id := parsed.merchant_id
    name := parsed.name
    slug := parsed.slug
    sku := parsed.sku
    type := parsed.type
    status := parsed.status
    price := parsed.price
    regular_price := parsed.regular_price
    sale_price := parsed.sale_price
    categories := parsed.categories
    tags := parsed.tags
    wc_created_at := parsed.wc_created_at
    wc_modified_at := parsed.wc_modified_at
    raw_data := parsed.raw_data
    embedding := parsed.embedding
    is_deleted := 0
    deleted_at := none
    synced_at := some now
    created_at := some now
    updated_at := none }

/-- `upsert_product`: atomic insert with `ON CONFLICT (wc_product_id) DO
UPDATE`.  When a row with the payload's remote product id exists anywhere
in the table (the conflict target is the global unique index, not scoped
by tenant) the update set is applied to it; otherwise a new row is
inserted.  The map form touches every matching row, which under the
uniqueness invariant is the single conflicting row.  `embedding` is the
outcome of the embedding `try` block (`none` when generation was not
requested, failed, or returned `None`). -/
def upsert_product (db : ProductDB) (store : WooCommerceStore)
    (product_data : ProductPayload) (embedding : Option (List Int))
    (now : Nat) : ProductDB :=
  let parsed := parse_woocommerce_product store product_data embedding
  if db.any (fun r => r.wc_product_id == product_data.id) then
    db.map (fun r => if r.wc_product_id == product_data.id
                     then apply_update_set parsed now r else r)
  else
    db ++ [insert_values parsed now]

/-- The query `upsert_product` issues after the commit to return the row:
first row whose `wc_product_id` matches. -/
def returned_product (db : ProductDB) (wc_product_id : Int) :
    Option ProductRow :=
  db.find? (fun r => r.wc_product_id == wc_product_id)

/-- The field updates of `soft_delete_product` on the found row. -/
def mark_deleted (now : Nat) (r : ProductRow) : ProductRow :=
  { r with is_deleted := 1, deleted_at := some now, status := some "deleted" }

/-- `soft_delete_product`: find the product by remote id and tenant; if
absent return `false` and leave the table unchanged, otherwise mark it
deleted and return `true`.  The ORM updates the single row found; the map
form is equivalent under the `wc_product_id` uniqueness invariant. -/
def soft_delete_product (db : ProductDB) (wc_product_id : Int)
    (merchant_id : String) (now : Nat) : ProductDB × Bool :=
  match db.find? (fun r =>
      r.wc_product_id == wc_product_id && r.merchant_id == merchant_id) with
  | none => (db, false)
  | some _ =>
      (db.map (fun r =>
        if r.wc_product_id == wc_product_id && r.merchant_id == merchant_id
        then mark_deleted now r else r), true)

/-- `restore_product`: clear the soft-delete flag and timestamp of the
product found by remote id and tenant; `false` when absent. -/
def restore_product (db : ProductDB) (wc_product_id : Int)
    (merchant_id : String) : ProductDB × Bool :=
  match db.find? (fun r =>
      r.wc_product_id == wc_product_id && r.merchant_id == merchant_id) with
  | none => (db, false)
  | some _ =>
      (db.map (fun r =>
        if r.wc_product_id == wc_product_id && r.merchant_id == merchant_id
        then { r with is_deleted := 0, deleted_at := none } else r), true)

/-! ## Remote pagination (`WooCommerceClient.get_products`)

A call for page `p` returns `(products, total, total_pages)` from the
response body and the `X-WP-Total` / `X-WP-TotalPages` headers, or raises
on transport / non-2xx errors.  The remote store is modelled as the list
of its page responses; a page beyond the list is an empty success (the
remote returns no items past its catalog). -/

/-- One `get_products` response: items with the two pagination header
values, or the message of the raised error. -/
abbrev PageResp := Except String (List ProductPayload × Nat × Nat)

/-- The response to `get_products(page=p)` against a remote modelled by its
page list. -/
def get_page (pages : List PageResp) (page : Nat) : PageResp :=
  pages.getD (page - 1) (.ok ([], 0, 0))

/-! ## Reconciliation driver (`app/routers/sync.py`, `reconcile_products`) -/

/-- The `ReconciliationResult` response model of `schemas.py`. -/
structure ReconciliationResult where
  status : String
  products_checked : Nat
  products_added : Nat
  products_updated : Nat
  products_deleted : Nat
  errors : List String
deriving Repr, DecidableEq

/-- Walk state: the running result, the product table, and the
`wc_product_ids` set collected so far (a list, queried by membership). -/
abbrev WalkState := ReconciliationResult × ProductDB × List Int

/-- The body of the per-product loop of `reconcile_products`: record the
remote id, bump `products_checked`, then look the product up by remote id
and tenant — absent: upsert and count `products_added`; present but
soft-deleted (`is_deleted` truthy): upsert (the restore path) and count
`products_updated`; present and active: no change.  Reconcile upserts
without `generate_embedding`, so the embedding outcome is `none`. -/
def reconcile_step (store : WooCommerceStore) (now : Nat) (st : WalkState)
    (product : ProductPayload) : WalkState :=
  let res := { st.1 with products_checked := st.1.products_checked + 1 }
  let db := st.2.1
  let ids := product.id :: st.2.2
  match db.find? (fun r =>
      r.wc_product_id == product.id &&
      r.merchant_id == store.merchant_id) with
  | none =>
      ({ res with products_added := res.products_added + 1 },
       upsert_product db store product none now, ids)
  | some existing =>
      if existing.is_deleted ≠ 0 then
        ({ res with products_updated := res.products_updated + 1 },
         upsert_product db store product none now, ids)
      else (res, db, ids)

/-- The `while True` pagination walk of `reconcile_products`: fetch the
page (an exception propagates to the handler's `try`, carried here as the
`Option String`), stop on an empty page, process the items, stop once
`page >= total_pages`, else continue with the next page.  `fuel` bounds
the recursion; every theorem instantiates it as `pages.length + 1`, which
the loop can never exhaust because pages beyond the response list are
empty. -/
def reconcile_walk (pages : List PageResp) (store : WooCommerceStore)
    (now : Nat) : Nat → Nat → WalkState → WalkState × Option String
  | 0, _, st => (st, none)
  | fuel + 1, page, st =>
    match get_page pages page with
    | .error e => (st, some e)
    | .ok (products, _, total_pages) =>
      if products = [] then (st, none)
      else
        let st := products.foldl (reconcile_step store now) st
        if page ≥ total_pages then (st, none)
        else reconcile_walk pages store now fuel (page + 1) st

/-- The deletion pass of `reconcile_products`: over the snapshot of the
tenant's active products, soft-delete each one whose remote id was not
observed and bump `products_deleted` (the Python loop increments the
counter unconditionally after calling `soft_delete_product`). -/
def delete_pass (store : WooCommerceStore) (now : Nat) (ids : List Int)
    (local_products : List ProductRow) (db : ProductDB) : ProductDB × Nat :=
  local_products.foldl (fun acc r =>
      if ids.contains r.wc_product_id then acc
      else ((soft_delete_product acc.1 r.wc_product_id
              store.merchant_id now).1, acc.2 + 1))
    (db, 0)

/-- The zero-count `completed` result `reconcile_products` starts from. -/
def empty_reconciliation_result : ReconciliationResult :=
  { status := "completed", products_checked := 0, products_added := 0,
    products_updated := 0, products_deleted := 0, errors := [] }

/-- `reconcile_products`: walk the full remote catalog, then soft-delete
the tenant's active products that were not observed.  An exception during
the walk (a failed page fetch) makes the status `partial`, appends the
error, keeps the table as accumulated so far, and skips the deletion pass
(the Python exception aborts the rest of the `try` block). -/
def reconcile_products (pages : List PageResp) (store : WooCommerceStore)
    (db : ProductDB) (now : Nat) : ReconciliationResult × ProductDB :=
  let init : WalkState := (empty_reconciliation_result, db, [])
  match reconcile_walk pages store now (pages.length + 1) 1 init with
  | ((res, db1, _), some e) =>
      ({ res with status := "partial", errors := res.errors ++ [e] }, db1)
  | ((res, db1, ids), none) =>
      let local_products := db1.filter (fun r =>
        r.merchant_id == store.merchant_id && r.is_deleted == 0)
      let final := delete_pass store now ids local_products db1
      ({ res with products_deleted := final.2 }, final.1)

/-! ## Bulk sync driver (`product_sync.py`,
`fetch_all_products_from_woocommerce`) -/

/-- The stats dict of `fetch_all_products_from_woocommerce`. -/
structure SyncStats where
  status : String
  total_products : Nat
  synced_count : Nat
  created_count : Nat
  updated_count : Nat
  failed_count : Nat
  pages_fetched : Nat
  error : Option String
deriving Repr, DecidableEq

/-- The counts dict returned by `sync_products_batch`. -/
structure BatchStats where
  synced_count : Nat
  created_count : Nat
  updated_count : Nat
  failed_count : Nat
deriving Repr, DecidableEq

/-- `sync_products_batch`: per product, check existence by remote id
(unscoped by tenant), upsert, and count created vs updated from the
pre-upsert check.  The embedding outcome per payload is `embFor` (the
`try` block result when `ENABLE_EMBEDDINGS` holds, `none` otherwise).
Per-item database failures, which Python counts in `failed_count` after a
rollback, are not modelled: the modelled store is total, so
`failed_count` stays 0. -/
def sync_products_batch (db : ProductDB) (store : WooCommerceStore)
    (products : List ProductPayload)
    (embFor : ProductPayload → Option (List Int)) (now : Nat) :
    ProductDB × BatchStats :=
  products.foldl (fun acc p =>
      let existing := acc.1.find? (fun r => r.wc_product_id == p.id)
      let db := upsert_product acc.1 store p (embFor p) now
      let s := acc.2
      (db,
       { synced_count := s.synced_count + 1
         created_count :=
           if existing.isSome then s.created_count else s.created_count + 1
         updated_count :=
           if existing.isSome then s.updated_count + 1 else s.updated_count
         failed_count := s.failed_count }))
    (db, ⟨0, 0, 0, 0⟩)

/-- The `while True` pagination loop of
`fetch_all_products_from_woocommerce`: fetch the page (an error is carried
to the surrounding `try` as the `Option String`), break on an empty page,
record `total_products` from page 1, sync the batch, accumulate stats,
bump `pages_fetched`, and break once `page >= total_pages` or the page
came back shorter than the requested size.  `fuel` as in
`reconcile_walk`. -/
def fetch_all_loop (pages : List PageResp) (per_page : Nat)
    (store : WooCommerceStore) (embFor : ProductPayload → Option (List Int))
    (now : Nat) : Nat → Nat → SyncStats → ProductDB →
    SyncStats × ProductDB × Option String
  | 0, _, stats, db => (stats, db, none)
  | fuel + 1, page, stats, db =>
    match get_page pages page with
    | .error e => (stats, db, some e)
    | .ok (products, total, total_pages) =>
      if products = [] then (stats, db, none)
      else
        let stats := if page = 1 then { stats with total_products := total }
                     else stats
        let batch := sync_products_batch db store products embFor now
        let stats :=
          { stats with
            synced_count := stats.synced_count + batch.2.synced_count
            created_count := stats.created_count + batch.2.created_count
            updated_count := stats.updated_count + batch.2.updated_count
            failed_count := stats.failed_count + batch.2.failed_count
            pages_fetched := stats.pages_fetched + 1 }
        if page ≥ total_pages || products.length < per_page then
          (stats, batch.1, none)
        else fetch_all_loop pages per_page store embFor now fuel (page + 1)
               stats batch.1

/-- `fetch_all_products_from_woocommerce`: run the pagination loop from
page 1; on clean completion stamp the store's `last_synced_at`, on an
exception mark the result `failed` with the error and leave the store
unstamped — partial progress already committed stays in the table either
way. -/
def fetch_all_products_from_woocommerce (pages : List PageResp)
    (per_page : Nat) (store : WooCommerceStore)
    (embFor : ProductPayload → Option (List Int)) (db : ProductDB)
    (now : Nat) : SyncStats × ProductDB × WooCommerceStore :=
  let init : SyncStats :=
    { status := "completed", total_products := 0, synced_count := 0,
      created_count := 0, updated_count := 0, failed_count := 0,
      pages_fetched := 0, error := none }
  match fetch_all_loop pages per_page store embFor now (pages.length + 1) 1
      init db with
  | (stats, db, none) =>
      (stats, db, { store with last_synced_at := some now })
  | (stats, db, some e) =>
      ({ stats with status := "failed", error := some e }, db, store)

/-- The exit condition of the bulk sync pagination loop at page `q`
against an all-successes remote `gs`: the page has no items, or the page
counter has reached the reported total page count, or the page came back
shorter than the requested size (`product_sync.py` lines 217 and 237). -/
abbrev bulk_exit (gs : List (List ProductPayload × Nat × Nat))
    (per_page q : Nat) : Prop :=
  (gs.getD (q - 1) ([], 0, 0)).1 = [] ∨
  (gs.getD (q - 1) ([], 0, 0)).2.2 ≤ q ∨
  (gs.getD (q - 1) ([], 0, 0)).1.length < per_page

/-! ## Scheduler (`app/services/scheduler.py`) -/

/-- `reconciliation_job`: the daily timer-triggered job.  It selects the
stores with `is_active == 1` and `is_verified == 1` and runs
`reconcile_store` on each inside a per-store `try/except`, so one store's
failure does not stop the loop; `reconcile_store` invokes
`fetch_all_products_from_woocommerce` — the bulk sync driver.  `pagesFor`
gives each store's remote catalog pages and `per_page` is
`settings.WC_PRODUCTS_PER_PAGE`. -/
def reconciliation_job (stores : List WooCommerceStore)
    (pagesFor : WooCommerceStore → List PageResp) (per_page : Nat)
    (embFor : ProductPayload → Option (List Int)) (db : ProductDB)
    (now : Nat) : ProductDB :=
  (stores.filter (fun s => s.is_active == 1 && s.is_verified == 1)).foldl
    (fun db s =>
      (fetch_all_products_from_woocommerce (pagesFor s) per_page s embFor
        db now).2.1)
    db

/-! ## Credential encryption (`app/utils/encryption.py` and the hybrid
properties of `app/models.py`)

The Fernet cipher is external; its decrypt primitive is a parameter
`cipher : String → Except String String` (`.error` models the
`InvalidToken` exception a corrupted ciphertext raises). -/

/-- `TokenEncryption.decrypt`: pass a falsy ciphertext through, otherwise
run the Fernet decrypt; a Fernet failure is re-raised as
`ValueError("Failed to decrypt credential: ...")` — this method raises on
failure, it does not return `None`. -/
def TokenEncryption.decrypt (cipher : String → Except String String)
    (encrypted_text : String) : Except String String :=
  if encrypted_text = "" then .ok encrypted_text
  else
    match cipher encrypted_text with
    | .ok s => .ok s
    | .error e => .error ("Failed to decrypt credential: " ++ e)

/-- The `consumer_key` hybrid property of `WooCommerceStore` in
`models.py` (the `consumer_secret` getter is identical): `None` when the
stored column is falsy, the decrypted value when decryption succeeds, and
`None` — swallowing the exception — when `TokenEncryption.decrypt`
raises.  `consumer_key_column` is the `_consumer_key` ciphertext column
(`none` models SQL `NULL`). -/
def consumer_key_property (cipher : String → Except String String)
    (consumer_key_column : Option String) : Option String :=
  match consumer_key_column with
  | none => none
  | some s =>
    if s = "" then none
    else
      match TokenEncryption.decrypt cipher s with
      | .ok v => some v
      | .error _ => none

/-! ## Sample data for concrete witnesses -/

/-- A Fernet decrypt that rejects every token, as it does on a corrupted
ciphertext (`InvalidToken`). -/
def badFernet : String → Except String String :=
  fun _ => .error "InvalidToken"

/-- Sample tenant. -/
def store0 : WooCommerceStore :=
  { id := 1, merchant_id := "m1", store_url := "https://a.example",
    is_active := 1, is_verified := 1, last_synced_at := none }

/-- A second, distinct tenant. -/
def store1 : WooCommerceStore :=
  { id := 2, merchant_id := "m2", store_url := "https://b.example",
    is_active := 1, is_verified := 1, last_synced_at := none }

/-- Sample payload, version 1. -/
def p0 : ProductPayload :=
  { id := 101, name := some "Widget", slug := some "widget",
    sku := some "W-1", type := some "simple", status := some "publish",
    price := some "9.99", regular_price := some "9.99", sale_price := none,
    categories := ["Tools"], tags := [],
    date_created := some "2024-01-01T00:00:00",
    date_modified := some "2024-01-02T00:00:00" }

/-- The same remote product as `p0`, a later payload version. -/
def p0v2 : ProductPayload :=
  { p0 with
    name := some "Widget v2"
    price := some "12.00"
    date_modified := some "2024-02-01T00:00:00" }

/-- A second remote product. -/
def p1 : ProductPayload :=
  { p0 with id := 102, name := some "Gadget", sku := some "G-1" }

/-- A third remote product. -/
def p2 : ProductPayload :=
  { p0 with id := 103, name := some "Gizmo", sku := some "Z-1" }

/-- A stored row for `p0` under `store0`, as the upsert insert branch
creates it at time 0. -/
def row0 : ProductRow :=
  insert_values (parse_woocommerce_product store0 p0 none) 0

/-- A stored row for `p1` under `store0`. -/
def row1 : ProductRow :=
  insert_values (parse_woocommerce_product store0 p1 none) 0

/-- A stored row for `p2` under `store0`. -/
def row2 : ProductRow :=
  insert_values (parse_woocommerce_product store0 p2 none) 0

/-! ## C4 — webhook signature verification -/

/-- C4: `verify_woocommerce_webhook` returns true exactly when the
signature is non-empty, the secret is non-empty, and the signature equals
`base64(HMAC-SHA256(payload, secret))`; it returns false for an empty
signature, for an empty secret, and whenever the expected signature
differs (in particular for an altered payload or the wrong secret); the
function is total, so it never raises. -/
theorem c4_verify_signature :
    (∀ (payload : Bytes) (signature : String) (secret : Bytes),
        verify_woocommerce_webhook payload signature secret = true ↔
          signature ≠ "" ∧ secret ≠ [] ∧
            signature = expected_signature secret payload)
    ∧ (∀ payload secret, verify_woocommerce_webhook payload "" secret = false)
    ∧ (∀ payload signature,
        verify_woocommerce_webhook payload signature [] = false)
    ∧ (∀ payload payload2 secret secret2,
        expected_signature secret payload ≠ expected_signature secret2 payload2 →
          verify_woocommerce_webhook payload2 (expected_signature secret payload)
            secret2 = false) := by
  refine ⟨?_, ?_, ?_, ?_⟩
  · intro p s k
    unfold verify_woocommerce_webhook
    by_cases hs : s = ""
    · simp [hs]
    · by_cases hk : k = ([] : Bytes)
      · simp [hs, hk]
      · rw [if_neg (by simp [hs, hk])]
        constructor
        · intro h; exact ⟨hs, hk, (beq_iff_eq.mp h).symm⟩
        · rintro ⟨-, -, h3⟩; exact beq_iff_eq.mpr h3.symm
  · intro p k; simp [verify_woocommerce_webhook]
  · intro p s; simp [verify_woocommerce_webhook]
  · intro p p2 k k2 h
    unfold verify_woocommerce_webhook
    by_cases hs : expected_signature k p = ""
    · simp [hs]
    · by_cases hk2 : k2 = ([] : Bytes)
      · simp [hs, hk2]
      · rw [if_neg (by simp [hs, hk2])]
        exact beq_eq_false_iff_ne.mpr fun hc => h hc.symm

set_option maxRecDepth 40000 in
/-- Witness for C4 at concrete bytes: payload `[1, 2]` with the signature
computed for secret `[107]` verifies true, and the same signature under a
different secret verifies false. -/
theorem c4_verify_signature_witness :
    verify_woocommerce_webhook [1, 2] (expected_signature [107] [1, 2]) [107]
        = true ∧
    verify_woocommerce_webhook [1, 2] (expected_signature [107] [1, 2]) [108]
        = false :=
  ⟨(c4_verify_signature.1 [1, 2] (expected_signature [107] [1, 2]) [107]).mpr
      ⟨by decide, by decide, rfl⟩,
   c4_verify_signature.2.2.2 [1, 2] [1, 2] [107] [108] (by decide)⟩

/-! ## C9 — credential decryption failure -/

/-- C9 counterexample: on a ciphertext the Fernet cipher rejects,
`TokenEncryption.decrypt` raises `ValueError` (an `Except.error` here) —
it does not return null. -/
theorem c9_decrypt_raises_counterexample :
    TokenEncryption.decrypt badFernet "corrupt" =
        .error "Failed to decrypt credential: InvalidToken" ∧
    (TokenEncryption.decrypt badFernet "corrupt").isOk = false := by
  constructor <;> rfl

/-- C9 amended: `TokenEncryption.decrypt` raises
`ValueError("Failed to decrypt credential: ...")` when the cipher rejects
a non-empty ciphertext, and it is the store's credential accessor (the
`consumer_key` / `consumer_secret` hybrid property) that catches the
exception and returns null, so a corrupted stored credential surfaces as
null on read rather than crashing the read. -/
theorem c9_credential_read_degrades :
    (∀ (cipher : String → Except String String) (e s : String),
        s ≠ "" → cipher s = .error e →
          TokenEncryption.decrypt cipher s =
            .error ("Failed to decrypt credential: " ++ e))
    ∧ (∀ (cipher : String → Except String String) (e s : String),
        cipher s = .error e →
          consumer_key_property cipher (some s) = none)
    ∧ (∀ cipher, consumer_key_property cipher none = none) := by
  refine ⟨?_, ?_, fun _ => rfl⟩
  · intro cipher e s hs he
    simp [TokenEncryption.decrypt, hs, he]
  · intro cipher e s he
    by_cases hs : s = ""
    · simp [consumer_key_property, hs]
    · simp [consumer_key_property, hs, TokenEncryption.decrypt, he]

/-- Witness for C9 amended: reading the credential of a store whose
ciphertext the cipher rejects yields null. -/
theorem c9_credential_read_degrades_witness :
    consumer_key_property badFernet (some "corrupt") = none :=
  c9_credential_read_degrades.2.1 badFernet "InvalidToken" "corrupt" rfl

/-! ## Shared helper lemmas about the upsert engine -/

/-- A list is `Forall₂`-related to its image under `f` pointwise. -/
theorem list_forall2_map_self {α β : Type} {R : α → β → Prop} {f : α → β} :
    ∀ {l : List α}, (∀ a ∈ l, R a (f a)) → List.Forall₂ R l (l.map f) := by
  intro l
  induction l with
  | nil => intro _; exact List.Forall₂.nil
  | cons a l ih =>
      intro h
      exact List.Forall₂.cons (h a (List.mem_cons_self a l))
        (ih fun x hx => h x (List.mem_cons_of_mem a hx))

/-- The remote product ids of the table after an upsert: unchanged on
conflict, the payload's id appended on insert. -/
theorem upsert_product_map_id (db : ProductDB) (store : WooCommerceStore)
    (p : ProductPayload) (emb : Option (List Int)) (now : Nat) :
    (upsert_product db store p emb now).map ProductRow.wc_product_id =
      if (db.any fun r => r.wc_product_id == p.id) = true
      then db.map ProductRow.wc_product_id
      else db.map ProductRow.wc_product_id ++ [p.id] := by
  unfold upsert_product
  by_cases hany : (db.any fun r => r.wc_product_id == p.id) = true
  · rw [if_pos hany, if_pos hany, List.map_map]
    apply List.map_congr_left
    intro a _
    by_cases hm : (a.wc_product_id == p.id) = true
    · simp only [Function.comp_apply, if_pos hm]; rfl
    · simp only [Function.comp_apply, if_neg hm]
  · rw [if_neg hany, if_neg hany, List.map_append]
    rfl

/-- An upsert preserves the uniqueness invariant on remote product ids. -/
theorem upsert_product_nodup (db : ProductDB) (store : WooCommerceStore)
    (p : ProductPayload) (emb : Option (List Int)) (now : Nat)
    (h : (db.map ProductRow.wc_product_id).Nodup) :
    ((upsert_product db store p emb now).map ProductRow.wc_product_id).Nodup := by
  rw [upsert_product_map_id]
  by_cases hany : (db.any fun r => r.wc_product_id == p.id) = true
  · rwa [if_pos hany]
  · rw [if_neg hany]
    have hnotin : p.id ∉ db.map ProductRow.wc_product_id := by
      intro hin
      rcases List.mem_map.mp hin with ⟨a, ha, hid⟩
      have : (a.wc_product_id == p.id) = true := beq_iff_eq.mpr hid
      exact hany (List.any_eq_true.mpr ⟨a, ha, this⟩)
    exact h.append (List.nodup_singleton _)
      (fun a ha hb => hnotin (by rwa [List.mem_singleton.mp hb] at ha))

/-- On conflict, the upsert is the pointwise conflict update over the
table. -/
theorem upsert_product_conflict (db : ProductDB) (store : WooCommerceStore)
    (p : ProductPayload) (emb : Option (List Int)) (now : Nat)
    (hany : (db.any fun r => r.wc_product_id == p.id) = true) :
    upsert_product db store p emb now =
      db.map (fun r => if r.wc_product_id == p.id
        then apply_update_set (parse_woocommerce_product store p emb) now r
        else r) := by
  unfold upsert_product
  rw [if_pos hany]

/-- The payload's remote id is present after any upsert. -/
theorem upsert_product_mem_id (db : ProductDB) (store : WooCommerceStore)
    (p : ProductPayload) (emb : Option (List Int)) (now : Nat) :
    p.id ∈ (upsert_product db store p emb now).map ProductRow.wc_product_id := by
  rw [upsert_product_map_id]
  by_cases hany : (db.any fun r => r.wc_product_id == p.id) = true
  · rw [if_pos hany]
    rcases List.any_eq_true.mp hany with ⟨a, ha, hb⟩
    exact List.mem_map.mpr ⟨a, ha, beq_iff_eq.mp hb⟩
  · rw [if_neg hany]
    exact List.mem_append.mpr (Or.inr (List.mem_singleton.mpr rfl))

/-- After an upsert of payload `p`, every row carrying `p`'s remote id has
`p`'s display fields and raw payload, a cleared delete flag, a fresh sync
timestamp, and — when a non-empty vector was computed — the new
embedding. -/
theorem upsert_match_fields :
    ∀ (db : ProductDB) (store : WooCommerceStore) (p : ProductPayload)
      (emb : Option (List Int)) (now : Nat) (r : ProductRow),
      r ∈ upsert_product db store p emb now → r.wc_product_id = p.id →
        r.is_deleted = 0 ∧ r.deleted_at = none ∧ r.synced_at = some now ∧
        r.name = p.name ∧ r.slug = p.slug ∧ r.sku = p.sku ∧
        r.type = p.type ∧ r.status = p.status ∧ r.price = p.price ∧
        r.regular_price = p.regular_price ∧ r.sale_price = p.sale_price ∧
        r.categories = p.categories ∧ r.tags = p.tags ∧
        r.wc_modified_at = parse_datetime p.date_modified ∧
        r.raw_data = p ∧ (embTruthy emb = true → r.embedding = emb) := by
  intro db store p emb now r hmem hid
  unfold upsert_product at hmem
  by_cases hany : (db.any fun r => r.wc_product_id == p.id) = true
  · rw [if_pos hany] at hmem
    rcases List.mem_map.mp hmem with ⟨a, _, rfl⟩
    by_cases hm : (a.wc_product_id == p.id) = true
    · rw [if_pos hm]
      refine ⟨rfl, rfl, rfl, rfl, rfl, rfl, rfl, rfl, rfl, rfl, rfl, rfl,
        rfl, rfl, rfl, fun htr => ?_⟩
      simp only [apply_update_set, parse_woocommerce_product]
      rw [if_pos htr]
    · rw [if_neg hm] at hid ⊢
      exact absurd (beq_iff_eq.mpr hid) (by simpa using hm)
  · rw [if_neg hany] at hmem
    rcases List.mem_append.mp hmem with hin | hin
    · have : (r.wc_product_id == p.id) = true := beq_iff_eq.mpr hid
      exact absurd (List.any_eq_true.mpr ⟨r, hin, this⟩) hany
    · rw [List.mem_singleton.mp hin]
      and_intros <;> intros <;> rfl

/-! ## C1 — conflict resolution converges to the latest payload -/

/-- C1: after any upsert, every row carrying the upserted remote id has the
new payload's display fields and raw payload, a cleared soft-delete flag
and timestamp, and a refreshed sync timestamp; consequently upserting V1
then V2 for the same remote id — even with a soft-delete in between —
leaves the row matching V2 with the delete flag cleared, and no upsert
leaves the upserted product marked deleted. -/
theorem c1_upsert_converges_and_undeletes :
    (∀ (db : ProductDB) (store : WooCommerceStore) (p : ProductPayload)
        (emb : Option (List Int)) (now : Nat) (r : ProductRow),
        r ∈ upsert_product db store p emb now → r.wc_product_id = p.id →
          r.is_deleted = 0 ∧ r.deleted_at = none ∧ r.synced_at = some now ∧
          r.name = p.name ∧ r.slug = p.slug ∧ r.sku = p.sku ∧
          r.type = p.type ∧ r.status = p.status ∧ r.price = p.price ∧
          r.regular_price = p.regular_price ∧ r.sale_price = p.sale_price ∧
          r.categories = p.categories ∧ r.tags = p.tags ∧
          r.wc_modified_at = parse_datetime p.date_modified ∧
          r.raw_data = p)
    ∧ (∀ (db : ProductDB) (store : WooCommerceStore) (p : ProductPayload)
        (emb1 emb2 : Option (List Int)) (t1 t2 t3 : Nat) (m : String)
        (r : ProductRow),
        r ∈ upsert_product
              (soft_delete_product (upsert_product db store p emb1 t1)
                p.id m t2).1 store p emb2 t3 →
          r.wc_product_id = p.id → r.is_deleted = 0 ∧ r.raw_data = p) := by
  constructor
  · intro db store p emb now r hmem hid
    obtain ⟨h1, h2, h3, h4, h5, h6, h7, h8, h9, h10, h11, h12, h13, h14,
      h15, -⟩ := upsert_match_fields db store p emb now r hmem hid
    exact ⟨h1, h2, h3, h4, h5, h6, h7, h8, h9, h10, h11, h12, h13, h14, h15⟩
  · intro db store p emb1 emb2 t1 t2 t3 m r hmem hid
    obtain ⟨h1, -, -, -, -, -, -, -, -, -, -, -, -, -, h15, -⟩ :=
      upsert_match_fields _ store p emb2 t3 r hmem hid
    exact ⟨h1, h15⟩

/-- Witness for C1: insert `p0` at time 1, soft-delete it at time 2, then
upsert version `p0v2` at time 3 — the row for remote id 101 is undeleted
and carries the V2 payload. -/
theorem c1_upsert_converges_and_undeletes_witness :
    (apply_update_set (parse_woocommerce_product store0 p0v2 none) 3
        (mark_deleted 2 (insert_values (parse_woocommerce_product store0 p0 none) 1))).is_deleted
        = 0 ∧
    (apply_update_set (parse_woocommerce_product store0 p0v2 none) 3
        (mark_deleted 2 (insert_values (parse_woocommerce_product store0 p0 none) 1))).raw_data
        = p0v2 := by
  obtain ⟨h1, -, -, -, -, -, -, -, -, -, -, -, -, -, h15⟩ :=
    c1_upsert_converges_and_undeletes.1
      (soft_delete_product (upsert_product [] store0 p0 none 1)
        p0.id store0.merchant_id 2).1
      store0 p0v2 none 3
      (apply_update_set (parse_woocommerce_product store0 p0v2 none) 3
        (mark_deleted 2 (insert_values (parse_woocommerce_product store0 p0 none) 1)))
      (by decide) (by decide)
  exact ⟨h1, h15⟩

/-! ## C7 — idempotence of repeated identical upserts -/

/-- C7 counterexample: upserting the identical payload twice, even at the
same clock value, does not reproduce the identical stored row — the
second call goes through the conflict update, which sets `updated_at`,
while the first (insert) left it `NULL`. -/
theorem c7_identical_state_counterexample :
    returned_product
        (upsert_product (upsert_product [] store0 p0 none 5) store0 p0 none 5)
        p0.id ≠
      returned_product (upsert_product [] store0 p0 none 5) p0.id := by
  decide

/-- C7 amended: a second upsert of the identical payload changes the
stored state only in the local bookkeeping timestamps (`synced_at`,
`updated_at`); every other column of every row is unchanged and no second
row is created; and under the unique index on the remote product id —
whose invariant every upsert preserves — the table holds exactly one row
for the upserted id. -/
theorem c7_upsert_idempotent_up_to_timestamps :
    (∀ (db : ProductDB) (store : WooCommerceStore) (p : ProductPayload)
        (emb : Option (List Int)) (t1 t2 : Nat),
        (upsert_product (upsert_product db store p emb t1) store p emb t2).length
            = (upsert_product db store p emb t1).length ∧
        List.Forall₂ (fun r r' =>
            r'.wc_product_id = r.wc_product_id ∧ r'.store_id = r.store_id ∧
            r'.merchant_id = r.merchant_id ∧ r'.name = r.name ∧
            r'.slug = r.slug ∧ r'.sku = r.sku ∧ r'.type = r.type ∧
            r'.status = r.status ∧ r'.price = r.price ∧
            r'.regular_price = r.regular_price ∧
            r'.sale_price = r.sale_price ∧ r'.categories = r.categories ∧
            r'.tags = r.tags ∧ r'.wc_created_at = r.wc_created_at ∧
            r'.wc_modified_at = r.wc_modified_at ∧
            r'.raw_data = r.raw_data ∧ r'.embedding = r.embedding ∧
            r'.is_deleted = r.is_deleted ∧ r'.deleted_at = r.deleted_at ∧
            r'.created_at = r.created_at)
          (upsert_product db store p emb t1)
          (upsert_product (upsert_product db store p emb t1) store p emb t2))
    ∧ (∀ (db : ProductDB) (store : WooCommerceStore) (p : ProductPayload)
        (emb : Option (List Int)) (t : Nat),
        (db.map ProductRow.wc_product_id).Nodup →
          ((upsert_product db store p emb t).map ProductRow.wc_product_id).Nodup
          ∧ ((upsert_product db store p emb t).map
              ProductRow.wc_product_id).count p.id = 1) := by
  constructor
  · intro db store p emb t1 t2
    have hany : ((upsert_product db store p emb t1).any
        fun r => r.wc_product_id == p.id) = true := by
      rcases List.mem_map.mp (upsert_product_mem_id db store p emb t1) with
        ⟨a, ha, hid⟩
      exact List.any_eq_true.mpr ⟨a, ha, beq_iff_eq.mpr hid⟩
    have heq := upsert_product_conflict (upsert_product db store p emb t1)
      store p emb t2 hany
    constructor
    · rw [heq]; simp
    · rw [heq]
      apply list_forall2_map_self
      intro a ha
      by_cases hm : (a.wc_product_id == p.id) = true
      · obtain ⟨hdel, hdelat, -, hname, hslug, hsku, htype, hstat, hprice,
          hrp, hsp, hcat, htags, hmod, hraw, hembC⟩ :=
          upsert_match_fields db store p emb t1 a ha (beq_iff_eq.mp hm)
        rw [if_pos hm]
        refine ⟨rfl, rfl, rfl, hname.symm, hslug.symm, hsku.symm, htype.symm,
          hstat.symm, hprice.symm, hrp.symm, hsp.symm, hcat.symm, htags.symm,
          rfl, hmod.symm, hraw.symm, ?_, hdel.symm, hdelat.symm, rfl⟩
        show (if embTruthy emb = true then emb else a.embedding) = a.embedding
        by_cases htr : embTruthy emb = true
        · rw [if_pos htr]; exact (hembC htr).symm
        · rw [if_neg htr]
      · rw [if_neg hm]
        and_intros <;> rfl
  · intro db store p emb t hnd
    refine ⟨upsert_product_nodup db store p emb t hnd, ?_⟩
    exact List.count_eq_one_of_mem
      (upsert_product_nodup db store p emb t hnd)
      (upsert_product_mem_id db store p emb t)

/-- Witness for C7 amended: a concrete double upsert keeps one row with an
unchanged raw payload, and the remote id appears exactly once. -/
theorem c7_upsert_idempotent_up_to_timestamps_witness :
    (upsert_product (upsert_product [] store0 p0 none 5) store0 p0 none 5).length
        = (upsert_product [] store0 p0 none 5).length ∧
    ((upsert_product [] store0 p0 none 5).map
        ProductRow.wc_product_id).count p0.id = 1 :=
  ⟨(c7_upsert_idempotent_up_to_timestamps.1 [] store0 p0 none 5 5).1,
   (c7_upsert_idempotent_up_to_timestamps.2 [] store0 p0 none 5
      (by decide)).2⟩

/-! ## C10 — conflict update frame and cross-tenant conflicts -/

/-- C10: a conflicting upsert keeps the table length and, row for row,
leaves `store_id`, `merchant_id`, `wc_created_at` and `created_at`
untouched, while the conflicting row (matched on the remote id alone —
the store argument plays no part in the match, so a different tenant's
row is silently updated rather than rejected) gets the new payload's
display fields. -/
theorem c10_conflict_update_frame :
    ∀ (db : ProductDB) (store : WooCommerceStore) (p : ProductPayload)
      (emb : Option (List Int)) (now : Nat),
      (db.any fun r => r.wc_product_id == p.id) = true →
        (upsert_product db store p emb now).length = db.length ∧
        List.Forall₂ (fun r r' =>
            r'.store_id = r.store_id ∧ r'.merchant_id = r.merchant_id ∧
            r'.wc_created_at = r.wc_created_at ∧
            r'.created_at = r.created_at ∧
            (r.wc_product_id = p.id →
              r'.name = p.name ∧ r'.status = p.status ∧
              r'.price = p.price ∧ r'.raw_data = p ∧ r'.is_deleted = 0) ∧
            (r.wc_product_id ≠ p.id → r' = r))
          db (upsert_product db store p emb now) := by
  intro db store p emb now hany
  unfold upsert_product
  rw [if_pos hany]
  refine ⟨by simp, ?_⟩
  apply list_forall2_map_self
  intro a _
  by_cases hm : (a.wc_product_id == p.id) = true
  · rw [if_pos hm]
    exact ⟨rfl, rfl, rfl, rfl, fun _ => ⟨rfl, rfl, rfl, rfl, rfl⟩,
      fun hne => absurd (beq_iff_eq.mp hm) hne⟩
  · rw [if_neg hm]
    exact ⟨rfl, rfl, rfl, rfl,
      fun hc => absurd (beq_iff_eq.mpr hc) (by simpa using hm), fun _ => rfl⟩

/-- Witness for C10: `store1` upserts a payload whose remote id collides
with `store0`'s stored row — the row keeps `store0`'s tenant linkage but
takes the new payload's name. -/
theorem c10_conflict_update_frame_witness :
    ((upsert_product [row0] store1 p0v2 none 5).getD 0 default).merchant_id
        = "m1" ∧
    ((upsert_product [row0] store1 p0v2 none 5).getD 0 default).name
        = some "Widget v2" := by
  obtain ⟨-, hf⟩ :=
    c10_conflict_update_frame [row0] store1 p0v2 none 5 (by decide)
  obtain ⟨b, u, hrel, -, heq⟩ := List.forall₂_cons_left_iff.mp hf
  rw [heq, List.getD_cons_zero]
  exact ⟨by rw [hrel.2.1]; rfl, by rw [(hrel.2.2.2.2.1 (by decide)).1]; rfl⟩

/-! ## C8 — embedding failures never abort, embedding only overwritten
when freshly computed -/

/-- C8: an upsert always completes and returns a row for the upserted
remote id whatever the embedding outcome; on conflict, when the embedding
`try` block produced no usable vector (`none`, covering a raised or
swallowed failure and a `None` return, or an empty result, which Python's
truthiness test also excludes) every row keeps its stored embedding; and
when a non-empty vector was computed the conflicting row takes it while
other rows keep theirs. -/
theorem c8_embedding_frame :
    (∀ (db : ProductDB) (store : WooCommerceStore) (p : ProductPayload)
        (emb : Option (List Int)) (now : Nat),
        (returned_product (upsert_product db store p emb now) p.id).isSome
          = true)
    ∧ (∀ (db : ProductDB) (store : WooCommerceStore) (p : ProductPayload)
        (emb : Option (List Int)) (now : Nat), embTruthy emb = false →
        (db.any fun r => r.wc_product_id == p.id) = true →
        List.Forall₂ (fun r r' => r'.embedding = r.embedding) db
          (upsert_product db store p emb now))
    ∧ (∀ (db : ProductDB) (store : WooCommerceStore) (p : ProductPayload)
        (now : Nat) (v : List Int), v ≠ [] →
        (db.any fun r => r.wc_product_id == p.id) = true →
        List.Forall₂ (fun r r' =>
            r'.embedding =
              if r.wc_product_id = p.id then some v else r.embedding)
          db (upsert_product db store p (some v) now)) := by
  refine ⟨?_, ?_, ?_⟩
  · intro db store p emb now
    rcases List.mem_map.mp (upsert_product_mem_id db store p emb now) with
      ⟨x, hx, hxid⟩
    exact List.find?_isSome.mpr ⟨x, hx, beq_iff_eq.mpr hxid⟩
  · intro db store p emb now hemb hany
    unfold upsert_product
    rw [if_pos hany]
    apply list_forall2_map_self
    intro a _
    by_cases hm : (a.wc_product_id == p.id) = true
    · rw [if_pos hm]
      simp [apply_update_set, parse_woocommerce_product, hemb]
    · rw [if_neg hm]
  · intro db store p now v hv hany
    unfold upsert_product
    rw [if_pos hany]
    apply list_forall2_map_self
    intro a _
    by_cases hm : (a.wc_product_id == p.id) = true
    · rw [if_pos hm, if_pos (beq_iff_eq.mp hm)]
      obtain ⟨x, xs, rfl⟩ := List.exists_cons_of_ne_nil hv
      simp [apply_update_set, parse_woocommerce_product, embTruthy]
    · rw [if_neg hm, if_neg (fun hc => absurd (beq_iff_eq.mpr hc)
        (by simpa using hm))]

/-- Witness for C8: upserting on a conflict with no embedding outcome
returns a row and leaves the stored embedding (here `none`) in place. -/
theorem c8_embedding_frame_witness :
    (returned_product (upsert_product [row0] store0 p0v2 none 5) p0v2.id).isSome
        = true ∧
    List.Forall₂ (fun r r' => r'.embedding = r.embedding) [row0]
      (upsert_product [row0] store0 p0v2 none 5) :=
  ⟨c8_embedding_frame.1 [row0] store0 p0v2 none 5,
   c8_embedding_frame.2.1 [row0] store0 p0v2 none 5 (by decide) (by decide)⟩

/-! ## Shared helper lemmas about the reconciliation walk -/

/-- Fetching the page just past a known prefix returns the next
response. -/
theorem get_page_append_middle (pre : List PageResp) (x : PageResp)
    (rest : List PageResp) :
    get_page (pre ++ x :: rest) (pre.length + 1) = x := by
  unfold get_page
  rw [Nat.add_sub_cancel,
    List.getD_append_right pre (x :: rest) _ pre.length (le_refl _),
    Nat.sub_self]
  rfl

/-- Against an all-successes remote, a page fetch is the indexed response
(empty beyond the catalog). -/
theorem get_page_map_ok (gs : List (List ProductPayload × Nat × Nat))
    (page : Nat) :
    get_page (gs.map Except.ok) page = .ok (gs.getD (page - 1) ([], 0, 0)) :=
  List.getD_map gs ([], 0, 0) Except.ok

/-- One reconcile step bumps `products_checked`, records the remote id,
and leaves status, errors and the deleted counter alone. -/
theorem reconcile_step_state (store : WooCommerceStore) (now : Nat)
    (st : WalkState) (product : ProductPayload) :
    (reconcile_step store now st product).1.status = st.1.status ∧
    (reconcile_step store now st product).1.errors = st.1.errors ∧
    (reconcile_step store now st product).1.products_checked
        = st.1.products_checked + 1 ∧
    (reconcile_step store now st product).1.products_deleted
        = st.1.products_deleted ∧
    (reconcile_step store now st product).2.2 = product.id :: st.2.2 := by
  rcases st with ⟨res0, db0, ids0⟩
  simp only [reconcile_step]
  rcases hfind : List.find? (fun r =>
      r.wc_product_id == product.id &&
      r.merchant_id == store.merchant_id) db0 with - | ex
  · simp only [hfind]
    and_intros <;> trivial
  · simp only [hfind]
    by_cases hdel : ex.is_deleted ≠ 0
    · rw [if_pos hdel]
      and_intros <;> trivial
    · rw [if_neg hdel]
      and_intros <;> trivial

/-- Folding reconcile steps over a product list: `products_checked` grows
by the list length, the observed ids are collected, and status, errors and
the deleted counter are untouched. -/
theorem reconcile_fold_state (store : WooCommerceStore) (now : Nat) :
    ∀ (products : List ProductPayload) (st : WalkState),
      (products.foldl (reconcile_step store now) st).1.status = st.1.status ∧
      (products.foldl (reconcile_step store now) st).1.errors = st.1.errors ∧
      (products.foldl (reconcile_step store now) st).1.products_checked
          = st.1.products_checked + products.length ∧
      (products.foldl (reconcile_step store now) st).1.products_deleted
          = st.1.products_deleted ∧
      (products.foldl (reconcile_step store now) st).2.2
          = (products.map ProductPayload.id).reverse ++ st.2.2 := by
  intro products
  induction products with
  | nil => intro st; exact ⟨rfl, rfl, rfl, rfl, rfl⟩
  | cons p ps ih =>
      intro st
      obtain ⟨s1, s2, s3, s4, s5⟩ := reconcile_step_state store now st p
      obtain ⟨f1, f2, f3, f4, f5⟩ := ih (reconcile_step store now st p)
      refine ⟨by rw [List.foldl_cons, f1, s1],
        by rw [List.foldl_cons, f2, s2],
        by rw [List.foldl_cons, f3, s3]; simp only [List.length_cons]; omega,
        by rw [List.foldl_cons, f4, s4], ?_⟩
      rw [List.foldl_cons, f5, s5]
      simp

/-- A walk whose pages are all non-empty successes reporting enough total
pages, followed by a raising fetch, folds the successful pages' products
into the state and surfaces the error, with the deletion pass never
reached. -/
theorem reconcile_walk_error_aux (store : WooCommerceStore) (now : Nat)
    (e : String) :
    ∀ (gs : List (List ProductPayload × Nat × Nat)) (pre : List PageResp)
      (fuel : Nat) (st : WalkState),
      gs.length + 1 ≤ fuel →
      (∀ i, i < gs.length →
        (gs.getD i ([], 0, 0)).1 ≠ [] ∧
        pre.length + i + 1 < (gs.getD i ([], 0, 0)).2.2) →
      reconcile_walk (pre ++ gs.map Except.ok ++ [Except.error e]) store now
          fuel (pre.length + 1) st =
        ((gs.map Prod.fst).flatten.foldl (reconcile_step store now) st,
          some e) := by
  intro gs
  induction gs with
  | nil =>
      intro pre fuel st hfuel h
      match fuel, hfuel with
      | f + 1, _ =>
        have hpages : pre ++ List.map Except.ok [] ++ [Except.error e]
            = pre ++ Except.error e :: ([] : List PageResp) := by simp
        rw [hpages]
        unfold reconcile_walk
        rw [get_page_append_middle]
        simp
  | cons g gs ih =>
      intro pre fuel st hfuel h
      match fuel, hfuel with
      | f + 1, hfuel =>
        obtain ⟨prods, tot, tp⟩ := g
        have hg0 := h 0 (by simp)
        simp only [List.getD_cons_zero] at hg0
        have hpages : pre ++ List.map Except.ok ((prods, tot, tp) :: gs)
              ++ [Except.error e]
            = pre ++ Except.ok (prods, tot, tp)
                :: (gs.map Except.ok ++ [Except.error e]) := by simp
        rw [hpages]
        simp only [reconcile_walk, get_page_append_middle]
        rw [if_neg hg0.1, if_neg (show ¬ pre.length + 1 ≥ tp by omega)]
        have hshift : pre ++ Except.ok (prods, tot, tp)
              :: (gs.map Except.ok ++ [Except.error e])
            = (pre ++ [Except.ok (prods, tot, tp)]) ++ gs.map Except.ok
                ++ [Except.error e] := by simp
        have hpage : pre.length + 1 + 1
            = (pre ++ [Except.ok (prods, tot, tp)]).length + 1 := by simp
        rw [hshift, hpage, ih (pre ++ [Except.ok (prods, tot, tp)]) f _
          (by simp only [List.length_cons] at hfuel; omega) ?_]
        · rw [List.map_cons, List.flatten_cons, List.foldl_append]
        · intro i hi
          obtain ⟨h1, h2⟩ := h (i + 1) (by simpa using Nat.succ_lt_succ hi)
          rw [List.getD_cons_succ] at h1 h2
          refine ⟨h1, ?_⟩
          simp only [List.length_append, List.length_singleton]
          omega

/-! ## C6 — exceptions during the walk yield `partial` with progress
kept -/

/-- C6: when the remote walk raises at some page (here: after `gs`
non-empty successful pages that report more pages to come, the next fetch
raises `e`), `reconcile_products` returns status `partial` with the error
message appended to the errors list, the result counts are exactly those
accumulated before the exception, and the returned table is the one the
walk had already built — the additions and restores applied before the
exception are kept, not rolled back; the deletion pass is skipped. -/
theorem c6_walk_exception_partial_status :
    ∀ (gs : List (List ProductPayload × Nat × Nat)) (e : String)
      (store : WooCommerceStore) (db : ProductDB) (now : Nat),
      (∀ i, i < gs.length →
        (gs.getD i ([], 0, 0)).1 ≠ [] ∧
        i + 1 < (gs.getD i ([], 0, 0)).2.2) →
      reconcile_products (gs.map Except.ok ++ [Except.error e]) store db now
        = ({ ((gs.map Prod.fst).flatten.foldl (reconcile_step store now)
                (empty_reconciliation_result, db, [])).1 with
             status := "partial", errors := [e] },
           ((gs.map Prod.fst).flatten.foldl (reconcile_step store now)
                (empty_reconciliation_result, db, [])).2.1) := by
  intro gs e store db now h
  have hw := reconcile_walk_error_aux store now e gs []
    ((gs.map Except.ok ++ [Except.error e]).length + 1)
    (empty_reconciliation_result, db, [])
    (by simp)
    (by intro i hi
        obtain ⟨h1, h2⟩ := h i hi
        exact ⟨h1, by simpa using h2⟩)
  simp only [List.nil_append, List.length_nil, Nat.zero_add] at hw
  rcases hst : (gs.map Prod.fst).flatten.foldl (reconcile_step store now)
      (empty_reconciliation_result, db, []) with ⟨res, db1, ids⟩
  rw [hst] at hw
  have herr : res.errors = [] := by
    have := (reconcile_fold_state store now (gs.map Prod.fst).flatten
      (empty_reconciliation_result, db, [])).2.1
    rw [hst] at this
    simpa [empty_reconciliation_result] using this
  simp only [reconcile_products, hw, herr]
  rfl

/-- Witness for C6: one good page reporting two total pages, then a
raising fetch — the result is `partial` carrying the error. -/
theorem c6_walk_exception_partial_status_witness :
    (reconcile_products ([([p0], 1, 2)].map Except.ok
        ++ [Except.error "boom"]) store0 [] 4).1.status = "partial" ∧
    (reconcile_products ([([p0], 1, 2)].map Except.ok
        ++ [Except.error "boom"]) store0 [] 4).1.errors = ["boom"] := by
  rw [c6_walk_exception_partial_status [([p0], 1, 2)] "boom" store0 [] 4 (by decide)]
  exact ⟨rfl, rfl⟩

/-! ## Shared helper lemmas for the reconcile walk and deletion pass -/

/-- `mark_deleted` is idempotent. -/
theorem mark_deleted_idem (now : Nat) (r : ProductRow) :
    mark_deleted now (mark_deleted now r) = mark_deleted now r := rfl

/-- `mark_deleted` keeps the remote product id. -/
theorem mark_deleted_id (now : Nat) (r : ProductRow) :
    (mark_deleted now r).wc_product_id = r.wc_product_id := rfl

/-- `mark_deleted` keeps the tenant id. -/
theorem mark_deleted_merchant (now : Nat) (r : ProductRow) :
    (mark_deleted now r).merchant_id = r.merchant_id := rfl

/-- `mark_deleted` sets the delete flag. -/
theorem mark_deleted_flag (now : Nat) (r : ProductRow) :
    (mark_deleted now r).is_deleted = 1 := rfl

/-- Mapping a function that fixes every element the filter keeps (and
whose image the filter also drops elsewhere) leaves the filter
unchanged. -/
theorem filter_map_congr {α : Type} (P : α → Bool) (f : α → α) :
    ∀ l : List α, (∀ a ∈ l, (P a = false ∧ P (f a) = false) ∨ f a = a) →
      (l.map f).filter P = l.filter P := by
  intro l
  induction l with
  | nil => intro _; rfl
  | cons a t ih =>
      intro h
      have ht := ih fun x hx => h x (List.mem_cons_of_mem a hx)
      rcases h a (List.mem_cons_self a t) with ⟨h1, h2⟩ | h1
      · simp only [List.map_cons, List.filter_cons, h1, h2,
          Bool.false_eq_true, if_false]
        exact ht
      · simp only [List.map_cons, h1, List.filter_cons, ht]

/-- An upsert whose payload id belongs to `S` leaves unchanged the
sublist of tenant-active rows whose ids are outside `S`. -/
theorem upsert_filter_untouched (S : List Int) (m : String)
    (db : ProductDB) (store : WooCommerceStore) (p : ProductPayload)
    (emb : Option (List Int)) (now : Nat) (hS : p.id ∈ S) :
    (upsert_product db store p emb now).filter
        (fun r => r.merchant_id == m && r.is_deleted == 0 &&
          !(S.contains r.wc_product_id)) =
      db.filter
        (fun r => r.merchant_id == m && r.is_deleted == 0 &&
          !(S.contains r.wc_product_id)) := by
  unfold upsert_product
  by_cases hany : (db.any fun r => r.wc_product_id == p.id) = true
  · rw [if_pos hany]
    apply filter_map_congr
    intro a _
    by_cases hm2 : (a.wc_product_id == p.id) = true
    · left
      have hmem : a.wc_product_id ∈ S := by
        rw [beq_iff_eq.mp hm2]; exact hS
      have hmem2 : (apply_update_set (parse_woocommerce_product store p emb)
          now a).wc_product_id ∈ S := hmem
      constructor
      · simp [hmem]
      · rw [if_pos hm2]
        simp [hmem2]
    · right
      rw [if_neg hm2]
  · rw [if_neg hany]
    rw [List.filter_append]
    have hmem : (insert_values (parse_woocommerce_product store p emb)
        now).wc_product_id ∈ S := hS
    have hsingle : (insert_values (parse_woocommerce_product store p emb) now
        :: ([] : ProductDB)).filter
        (fun r => r.merchant_id == m && r.is_deleted == 0 &&
          !(S.contains r.wc_product_id)) = [] := by
      simp [hmem]
    rw [hsingle, List.append_nil]

/-- The three cases of the per-product body of the reconcile walk:
added (no tenant row), updated/restored (tenant row soft-deleted), and
no-op (tenant row active). -/
theorem reconcile_step_cases (store : WooCommerceStore) (now : Nat)
    (st : WalkState) (product : ProductPayload) :
    (List.find? (fun r => r.wc_product_id == product.id &&
          r.merchant_id == store.merchant_id) st.2.1 = none →
      reconcile_step store now st product =
        ({ st.1 with
            products_checked := st.1.products_checked + 1,
            products_added := st.1.products_added + 1 },
          upsert_product st.2.1 store product none now,
          product.id :: st.2.2))
    ∧ (∀ ex, List.find? (fun r => r.wc_product_id == product.id &&
          r.merchant_id == store.merchant_id) st.2.1 = some ex →
        ex.is_deleted ≠ 0 →
        reconcile_step store now st product =
          ({ st.1 with
              products_checked := st.1.products_checked + 1,
              products_updated := st.1.products_updated + 1 },
            upsert_product st.2.1 store product none now,
            product.id :: st.2.2))
    ∧ (∀ ex, List.find? (fun r => r.wc_product_id == product.id &&
          r.merchant_id == store.merchant_id) st.2.1 = some ex →
        ex.is_deleted = 0 →
        reconcile_step store now st product =
          ({ st.1 with products_checked := st.1.products_checked + 1 },
            st.2.1, product.id :: st.2.2)) := by
  rcases st with ⟨res0, db0, ids0⟩
  refine ⟨?_, ?_, ?_⟩
  · intro hfind
    simp only [reconcile_step]
    rw [hfind]
  · intro ex hfind hdel
    simp only [reconcile_step]
    rw [hfind]
    simp only [if_pos hdel]
  · intro ex hfind hdel
    simp only [reconcile_step]
    rw [hfind]
    simp [hdel]

/-- A reconcile step for an observed product leaves the
tenant-active-unobserved sublist unchanged. -/
theorem reconcile_step_filter (store : WooCommerceStore) (now : Nat)
    (S : List Int) (m : String) (st : WalkState) (product : ProductPayload)
    (hS : product.id ∈ S) :
    ((reconcile_step store now st product).2.1).filter
        (fun r => r.merchant_id == m && r.is_deleted == 0 &&
          !(S.contains r.wc_product_id)) =
      (st.2.1).filter
        (fun r => r.merchant_id == m && r.is_deleted == 0 &&
          !(S.contains r.wc_product_id)) := by
  obtain ⟨hnone, hsome_del, hsome_act⟩ := reconcile_step_cases store now st
    product
  rcases hfind : List.find? (fun r => r.wc_product_id == product.id &&
      r.merchant_id == store.merchant_id) st.2.1 with - | ex
  · rw [hnone hfind]
    exact upsert_filter_untouched S m st.2.1 store product none now hS
  · by_cases hdel : ex.is_deleted ≠ 0
    · rw [hsome_del ex hfind hdel]
      exact upsert_filter_untouched S m st.2.1 store product none now hS
    · rw [hsome_act ex hfind (by omega)]

/-- Folding reconcile steps over observed products leaves the
tenant-active-unobserved sublist unchanged. -/
theorem reconcile_fold_filter (store : WooCommerceStore) (now : Nat)
    (S : List Int) (m : String) :
    ∀ (products : List ProductPayload) (st : WalkState),
      (∀ q ∈ products, q.id ∈ S) →
      ((products.foldl (reconcile_step store now) st).2.1).filter
          (fun r => r.merchant_id == m && r.is_deleted == 0 &&
            !(S.contains r.wc_product_id)) =
        (st.2.1).filter
          (fun r => r.merchant_id == m && r.is_deleted == 0 &&
            !(S.contains r.wc_product_id)) := by
  intro products
  induction products with
  | nil => intro st _; rfl
  | cons q qs ih =>
      intro st h
      rw [List.foldl_cons,
        ih (reconcile_step store now st q)
          (fun x hx => h x (List.mem_cons_of_mem q hx)),
        reconcile_step_filter store now S m st q
          (h q (List.mem_cons_self q qs))]

/-- A walk over non-empty successful pages that all report the full page
count folds every page's products into the state and stops cleanly at the
last page. -/
theorem reconcile_walk_clean_aux (store : WooCommerceStore) (now : Nat) :
    ∀ (gs : List (List ProductPayload × Nat × Nat)) (pre : List PageResp)
      (fuel : Nat) (st : WalkState),
      gs.length + 1 ≤ fuel →
      (∀ i, i < gs.length →
        (gs.getD i ([], 0, 0)).1 ≠ [] ∧
        (gs.getD i ([], 0, 0)).2.2 = pre.length + gs.length) →
      reconcile_walk (pre ++ gs.map Except.ok) store now fuel
          (pre.length + 1) st =
        ((gs.map Prod.fst).flatten.foldl (reconcile_step store now) st,
          none) := by
  intro gs
  induction gs with
  | nil =>
      intro pre fuel st hfuel h
      match fuel, hfuel with
      | f + 1, _ =>
        have hpages : pre ++ List.map Except.ok
            ([] : List (List ProductPayload × Nat × Nat)) = pre := by simp
        rw [hpages]
        have hget : get_page pre (pre.length + 1) = .ok ([], 0, 0) := by
          unfold get_page
          rw [Nat.add_sub_cancel, List.getD_eq_default _ _ (le_refl _)]
        simp [reconcile_walk, hget]
  | cons g gs ih =>
      intro pre fuel st hfuel h
      match fuel, hfuel with
      | f + 1, hfuel =>
        obtain ⟨prods, tot, tp⟩ := g
        have hg0 := h 0 (by simp)
        simp only [List.getD_cons_zero, List.length_cons] at hg0
        have hfuel2 : gs.length + 1 ≤ f := by
          simp only [List.length_cons] at hfuel; omega
        have hpages : pre ++ List.map Except.ok ((prods, tot, tp) :: gs)
            = pre ++ Except.ok (prods, tot, tp) :: gs.map Except.ok := by
          simp
        rw [hpages]
        simp only [reconcile_walk, get_page_append_middle]
        rw [if_neg hg0.1]
        rcases gs with - | ⟨g2, gs2⟩
        · rw [if_pos (show pre.length + 1 ≥ tp by
            simp only [List.length_nil] at hg0; omega)]
          simp
        · rw [if_neg (show ¬ pre.length + 1 ≥ tp by
            simp only [List.length_cons] at hg0; omega)]
          have hshift : pre ++ Except.ok (prods, tot, tp)
                :: (g2 :: gs2).map Except.ok
              = (pre ++ [Except.ok (prods, tot, tp)])
                  ++ (g2 :: gs2).map Except.ok := by simp
          have hpage : pre.length + 1 + 1
              = (pre ++ [Except.ok (prods, tot, tp)]).length + 1 := by simp
          rw [hshift, hpage, ih (pre ++ [Except.ok (prods, tot, tp)]) f _
            hfuel2 ?_]
          · simp [List.foldl_append]
          · intro i hi
            obtain ⟨h1, h2⟩ := h (i + 1) (by simpa using Nat.succ_lt_succ hi)
            rw [List.getD_cons_succ] at h1 h2
            simp only [List.length_cons, List.length_append,
              List.length_singleton, List.length_nil] at h2 ⊢
            exact ⟨h1, by omega⟩

/-- The deletion pass counts exactly the rows of its snapshot whose remote
id was not observed (the Python loop increments unconditionally after the
membership test). -/
theorem delete_pass_count_aux (store : WooCommerceStore) (now : Nat)
    (ids : List Int) :
    ∀ (todo : List ProductRow) (acc : ProductDB × Nat),
      (todo.foldl (fun acc r =>
          if ids.contains r.wc_product_id then acc
          else ((soft_delete_product acc.1 r.wc_product_id
                  store.merchant_id now).1, acc.2 + 1)) acc).2
        = acc.2 + (todo.filter
            (fun r => !(ids.contains r.wc_product_id))).length := by
  intro todo
  induction todo with
  | nil => intro acc; simp
  | cons r t ih =>
      intro acc
      rw [List.foldl_cons]
      by_cases hc : ids.contains r.wc_product_id = true
      · rw [if_pos hc, ih]
        have hlen : (List.filter (fun r => !ids.contains r.wc_product_id)
              (r :: t)).length
            = (List.filter (fun r => !ids.contains r.wc_product_id)
                t).length := by
          rw [List.filter_cons]
          have hb : (!ids.contains r.wc_product_id) = false := by
            rw [hc]; rfl
          rw [hb]
          simp
        rw [hlen]
      · rw [if_neg hc, ih]
        have hlen : (List.filter (fun r => !ids.contains r.wc_product_id)
              (r :: t)).length
            = (List.filter (fun r => !ids.contains r.wc_product_id)
                t).length + 1 := by
          rw [List.filter_cons]
          have hb : (!ids.contains r.wc_product_id) = true := by
            simpa using hc
          rw [hb]
          simp
        rw [hlen]
        omega

/-- The deletion pass's `products_deleted` count. -/
theorem delete_pass_count (store : WooCommerceStore) (now : Nat)
    (ids : List Int) (todo : List ProductRow) (db : ProductDB) :
    (delete_pass store now ids todo db).2
      = (todo.filter (fun r => !(ids.contains r.wc_product_id))).length := by
  unfold delete_pass
  rw [delete_pass_count_aux]
  simp

/-- The deletion pass, as a map over the table: a row is marked deleted
exactly when some snapshot row with an unobserved matching remote id and
the tenant's merchant id targets it. -/
theorem delete_pass_db (store : WooCommerceStore) (now : Nat)
    (ids : List Int) :
    ∀ (todo : List ProductRow) (db : ProductDB) (c : Nat),
      (todo.foldl (fun acc r =>
          if ids.contains r.wc_product_id then acc
          else ((soft_delete_product acc.1 r.wc_product_id
                  store.merchant_id now).1, acc.2 + 1)) (db, c)).1
        = db.map (fun r =>
            if (todo.any (fun q => !(ids.contains q.wc_product_id) &&
                  r.wc_product_id == q.wc_product_id)
                && r.merchant_id == store.merchant_id) = true
            then mark_deleted now r else r) := by
  intro todo
  induction todo with
  | nil =>
      intro db c
      simp
  | cons p t ih =>
      intro db c
      rw [List.foldl_cons]
      by_cases hc : ids.contains p.wc_product_id = true
      · rw [if_pos hc, ih]
        apply List.map_congr_left
        intro r _
        have hmemP : p.wc_product_id ∈ ids := by simpa using hc
        simp [List.any_cons, hmemP]
      · rw [if_neg hc]
        have hpmem : p.wc_product_id ∉ ids := by simpa using hc
        rcases hfind : List.find? (fun r =>
            r.wc_product_id == p.wc_product_id &&
            r.merchant_id == store.merchant_id) db with - | fr
        · have hsd : (soft_delete_product db p.wc_product_id
              store.merchant_id now).1 = db := by
            unfold soft_delete_product; rw [hfind]
          rw [hsd, ih]
          apply List.map_congr_left
          intro r hr
          have hno := List.find?_eq_none.mp hfind r hr
          by_cases hmm2 : r.merchant_id = store.merchant_id
          · have hid : ¬ r.wc_product_id = p.wc_product_id :=
              fun hcontr => hno (by simp [hcontr, hmm2])
            simp [List.any_cons, hid]
          · simp [hmm2]
        · have hsd : (soft_delete_product db p.wc_product_id
              store.merchant_id now).1
              = db.map (fun r =>
                  if r.wc_product_id == p.wc_product_id &&
                     r.merchant_id == store.merchant_id
                  then mark_deleted now r else r) := by
            unfold soft_delete_product; rw [hfind]
          rw [hsd, ih, List.map_map]
          apply List.map_congr_left
          intro r _
          simp only [Function.comp_apply]
          by_cases hm1 : (r.wc_product_id == p.wc_product_id &&
              r.merchant_id == store.merchant_id) = true
          · rw [Bool.and_eq_true] at hm1
            have hidP : r.wc_product_id = p.wc_product_id := by
              simpa using hm1.1
            have hmP : r.merchant_id = store.merchant_id := by
              simpa using hm1.2
            simp [hidP, hmP, hpmem, mark_deleted_id, mark_deleted_merchant,
              mark_deleted_idem, List.any_cons]
          · by_cases hmm2 : r.merchant_id = store.merchant_id
            · have hid : ¬ r.wc_product_id = p.wc_product_id :=
                fun hcontr => hm1 (by simp [hcontr, hmm2])
              simp [List.any_cons, hid]
            · simp [hmm2]

/-- The deletion pass in map form. -/
theorem delete_pass_db_eq (store : WooCommerceStore) (now : Nat)
    (ids : List Int) (todo : List ProductRow) (db : ProductDB) :
    (delete_pass store now ids todo db).1
      = db.map (fun r =>
          if (todo.any (fun q => !(ids.contains q.wc_product_id) &&
                r.wc_product_id == q.wc_product_id)
              && r.merchant_id == store.merchant_id) = true
          then mark_deleted now r else r) := by
  unfold delete_pass
  rw [delete_pass_db]

/-- After the deletion pass over a snapshot covering every tenant-active
unobserved row, every still-active row of the tenant has an observed
remote id. -/
theorem delete_pass_active_observed (store : WooCommerceStore) (now : Nat)
    (ids : List Int) (todo : List ProductRow) (db : ProductDB)
    (hcover : ∀ r ∈ db, r.merchant_id = store.merchant_id →
      r.is_deleted = 0 → ids.contains r.wc_product_id = false → r ∈ todo) :
    ∀ r ∈ (delete_pass store now ids todo db).1,
      r.merchant_id = store.merchant_id → r.is_deleted = 0 →
        ids.contains r.wc_product_id = true := by
  intro r hr hm hact
  rw [delete_pass_db_eq] at hr
  rcases List.mem_map.mp hr with ⟨a, ha, rfl⟩
  by_cases hcond : ((todo.any (fun q => !(ids.contains q.wc_product_id) &&
      a.wc_product_id == q.wc_product_id))
      && a.merchant_id == store.merchant_id) = true
  · rw [if_pos hcond] at hm hact
    exact absurd hact (by simp [mark_deleted])
  · rw [if_neg hcond] at hm hact ⊢
    by_cases hcont : ids.contains a.wc_product_id = true
    · exact hcont
    · exfalso
      have hc2 : ids.contains a.wc_product_id = false := by simpa using hcont
      have hmemP : a.wc_product_id ∉ ids := by simpa using hcont
      have hmem := hcover a ha hm hact hc2
      refine hcond ?_
      simp only [Bool.and_eq_true]
      constructor
      · exact List.any_eq_true.mpr ⟨a, hmem, by simp [hmemP]⟩
      · simp [hm]

/-! ## C2 — reconcile adds, restores, and deletes by absence -/

/-- C2: the walk body of `reconcile_products` upserts and counts
`products_added` when no local row exists for the remote id and tenant,
upserts and counts `products_updated` when the local row exists but is
soft-deleted (the restore path), and leaves the table alone when it is
active; and for a clean full walk (non-empty successful pages all
reporting the catalog's page count), the run completes with
`products_checked` equal to the number of remote products enumerated,
every still-active product of the tenant carries an observed remote id
(equivalently, each active one whose id was not observed has been
soft-deleted), and `products_deleted` counts exactly the tenant's
initially active products whose remote id was not observed. -/
theorem c2_reconcile_adds_restores_deletes :
    (∀ (store : WooCommerceStore) (now : Nat) (st : WalkState)
        (product : ProductPayload),
        (List.find? (fun r => r.wc_product_id == product.id &&
              r.merchant_id == store.merchant_id) st.2.1 = none →
          reconcile_step store now st product =
            ({ st.1 with
                products_checked := st.1.products_checked + 1,
                products_added := st.1.products_added + 1 },
              upsert_product st.2.1 store product none now,
              product.id :: st.2.2))
        ∧ (∀ ex, List.find? (fun r => r.wc_product_id == product.id &&
              r.merchant_id == store.merchant_id) st.2.1 = some ex →
            ex.is_deleted ≠ 0 →
            reconcile_step store now st product =
              ({ st.1 with
                  products_checked := st.1.products_checked + 1,
                  products_updated := st.1.products_updated + 1 },
                upsert_product st.2.1 store product none now,
                product.id :: st.2.2))
        ∧ (∀ ex, List.find? (fun r => r.wc_product_id == product.id &&
              r.merchant_id == store.merchant_id) st.2.1 = some ex →
            ex.is_deleted = 0 →
            reconcile_step store now st product =
              ({ st.1 with
                  products_checked := st.1.products_checked + 1 },
                st.2.1, product.id :: st.2.2)))
    ∧ (∀ (gs : List (List ProductPayload × Nat × Nat))
        (store : WooCommerceStore) (db : ProductDB) (now : Nat),
        (∀ i, i < gs.length →
          (gs.getD i ([], 0, 0)).1 ≠ [] ∧
          (gs.getD i ([], 0, 0)).2.2 = gs.length) →
        (reconcile_products (gs.map Except.ok) store db now).1.status
            = "completed" ∧
        (reconcile_products (gs.map Except.ok) store db now).1.products_checked
            = ((gs.map Prod.fst).flatten).length ∧
        (∀ r ∈ (reconcile_products (gs.map Except.ok) store db now).2,
            r.merchant_id = store.merchant_id → r.is_deleted = 0 →
            r.wc_product_id ∈
              (gs.map Prod.fst).flatten.map ProductPayload.id) ∧
        (reconcile_products (gs.map Except.ok) store db
            now).1.products_deleted
          = (db.filter (fun r => r.merchant_id == store.merchant_id &&
              r.is_deleted == 0 &&
              !(((gs.map Prod.fst).flatten.map ProductPayload.id).contains
                  r.wc_product_id))).length) := by
  constructor
  · exact fun store now st product => reconcile_step_cases store now st product
  intro gs store db now hpg
  have hwalk := reconcile_walk_clean_aux store now gs []
    ((List.map Except.ok gs : List PageResp).length + 1)
    (empty_reconciliation_result, db, [])
    (by simp)
    (by intro i hi
        obtain ⟨h1, h2⟩ := hpg i hi
        exact ⟨h1, by simpa using h2⟩)
  simp only [List.nil_append, List.length_nil, Nat.zero_add] at hwalk
  rcases hst : (gs.map Prod.fst).flatten.foldl (reconcile_step store now)
      (empty_reconciliation_result, db, []) with ⟨res1, db1, ids⟩
  rw [hst] at hwalk
  obtain ⟨f_status, f_errors, f_checked, f_deleted, f_ids⟩ :=
    reconcile_fold_state store now (gs.map Prod.fst).flatten
      (empty_reconciliation_result, db, [])
  rw [hst] at f_status f_errors f_checked f_deleted f_ids
  have hstat : res1.status = "completed" := by
    simpa [empty_reconciliation_result] using f_status
  have hcheck : res1.products_checked = ((gs.map Prod.fst).flatten).length := by
    simpa [empty_reconciliation_result] using f_checked
  have hids : ids = ((gs.map Prod.fst).flatten.map ProductPayload.id).reverse := by
    simpa using f_ids
  have hobs : ∀ q ∈ (gs.map Prod.fst).flatten, q.id ∈ ids := by
    intro q hq
    rw [hids]
    simpa using List.mem_map_of_mem ProductPayload.id hq
  have hfilter := reconcile_fold_filter store now ids store.merchant_id
    (gs.map Prod.fst).flatten (empty_reconciliation_result, db, []) hobs
  rw [hst] at hfilter
  have hout : reconcile_products (gs.map Except.ok) store db now
      = ({ res1 with products_deleted :=
            (delete_pass store now ids
              (db1.filter (fun r => r.merchant_id == store.merchant_id &&
                r.is_deleted == 0)) db1).2 },
         (delete_pass store now ids
            (db1.filter (fun r => r.merchant_id == store.merchant_id &&
              r.is_deleted == 0)) db1).1) := by
    simp only [reconcile_products]
    rw [hwalk]
  rw [hout]
  have hcover : ∀ a ∈ db1, a.merchant_id = store.merchant_id →
      a.is_deleted = 0 → ids.contains a.wc_product_id = false →
        a ∈ db1.filter (fun r => r.merchant_id == store.merchant_id &&
          r.is_deleted == 0) := by
    intro a ha hm2 hact2 _
    exact List.mem_filter.mpr ⟨ha, by simp [hm2, hact2]⟩
  refine ⟨hstat, hcheck, ?_, ?_⟩
  · intro r hr hm hact
    have hcont := delete_pass_active_observed store now ids
      (db1.filter (fun r => r.merchant_id == store.merchant_id &&
        r.is_deleted == 0)) db1 hcover r hr hm hact
    have hmemids : r.wc_product_id ∈ ids := by simpa using hcont
    rw [hids] at hmemids
    simpa using hmemids
  · show (delete_pass store now ids
        (db1.filter (fun r => r.merchant_id == store.merchant_id &&
          r.is_deleted == 0)) db1).2 = _
    rw [delete_pass_count, List.filter_filter]
    have hswap : db1.filter (fun r =>
          (!ids.contains r.wc_product_id) &&
          (r.merchant_id == store.merchant_id && r.is_deleted == 0))
        = db1.filter (fun r => r.merchant_id == store.merchant_id &&
            r.is_deleted == 0 && !(ids.contains r.wc_product_id)) :=
      List.filter_congr (fun a _ => Bool.and_comm _ _)
    rw [hswap, hfilter]
    have hpred : db.filter (fun r => r.merchant_id == store.merchant_id &&
          r.is_deleted == 0 && !(ids.contains r.wc_product_id))
        = db.filter (fun r => r.merchant_id == store.merchant_id &&
            r.is_deleted == 0 &&
            !(((gs.map Prod.fst).flatten.map ProductPayload.id).contains
                r.wc_product_id)) := by
      apply List.filter_congr
      intro a _
      have hrc : ∀ x : Int,
          (((gs.map Prod.fst).flatten.map
              ProductPayload.id).reverse).contains x
            = ((gs.map Prod.fst).flatten.map
                ProductPayload.id).contains x := fun x => by simp
      rw [hids, hrc]
    rw [hpred]

/-- Witness for C2 (full-run part): three local products for `store0`, a
remote catalog of a single full page holding only two of them — the run
completes with two products checked and one product deleted by
absence. -/
theorem c2_reconcile_adds_restores_deletes_witness :
    (reconcile_products ([([p0, p1], 2, 1)].map Except.ok) store0
        [row0, row1, row2] 9).1.status = "completed" ∧
    (reconcile_products ([([p0, p1], 2, 1)].map Except.ok) store0
        [row0, row1, row2] 9).1.products_checked
        = (([([p0, p1], 2, 1)].map Prod.fst).flatten).length ∧
    (reconcile_products ([([p0, p1], 2, 1)].map Except.ok) store0
        [row0, row1, row2] 9).1.products_deleted
        = ([row0, row1, row2].filter (fun r =>
            r.merchant_id == store0.merchant_id &&
            r.is_deleted == 0 &&
            !((([([p0, p1], 2, 1)].map Prod.fst).flatten.map
                ProductPayload.id).contains r.wc_product_id))).length := by
  obtain ⟨h1, h2, -, h4⟩ :=
    c2_reconcile_adds_restores_deletes.2 [([p0, p1], 2, 1)] store0
      [row0, row1, row2] 9 (by decide)
  exact ⟨h1, h2, h4⟩

/-! ## C5 — bulk sync pagination termination -/

/-- The bulk pagination loop, started at `page` with `k` consecutive
non-exit pages ahead and the exit condition holding at `page + k`, halts
exactly there: it returns cleanly (no error), keeps the running status,
and advances `pages_fetched` once per non-empty page processed — `k` full
pages plus the final page unless that page was empty. -/
theorem fetch_all_loop_exit_aux (gs : List (List ProductPayload × Nat × Nat))
    (per_page : Nat) (store : WooCommerceStore)
    (embFor : ProductPayload → Option (List Int)) (now : Nat) :
    ∀ (k page fuel : Nat) (stats : SyncStats) (db : ProductDB),
      1 ≤ page → k + 1 ≤ fuel →
      (∀ q, page ≤ q → q < page + k → ¬ bulk_exit gs per_page q) →
      bulk_exit gs per_page (page + k) →
      ∃ stats2 db2,
        fetch_all_loop (gs.map Except.ok) per_page store embFor now fuel page
            stats db = (stats2, db2, none) ∧
        stats2.status = stats.status ∧
        stats2.pages_fetched = stats.pages_fetched + k +
          (if (gs.getD (page + k - 1) ([], 0, 0)).1 = [] then 0 else 1) := by
  intro k
  induction k with
  | zero =>
      intro page fuel stats db hp hfuel hmin hexit
      match fuel, hfuel with
      | f + 1, _ =>
        rcases hresp : gs.getD (page - 1) ([], 0, 0) with ⟨prods, tot, tp⟩
        simp only [Nat.add_zero] at hexit ⊢
        simp only [bulk_exit, hresp] at hexit
        simp only [fetch_all_loop, get_page_map_ok, hresp]
        split
        · rename_i hempty
          exact ⟨stats, db, rfl, rfl, by simp [hempty]⟩
        · rename_i hempty
          split
          · refine ⟨_, _, rfl, ?_, ?_⟩
            · by_cases hp1 : page = 1 <;> simp [hp1]
            · by_cases hp1 : page = 1 <;> simp [hp1, hempty]
          · rename_i hcond
            exfalso
            rcases hexit with h | h | h
            · exact hempty h
            · exact hcond (by simp [Nat.le_of_lt_succ]; omega)
            · exact hcond (by simp; omega)
  | succ k ih =>
      intro page fuel stats db hp hfuel hmin hexit
      match fuel, hfuel with
      | f + 1, hfuel =>
        have hstep := hmin page (le_refl _) (by omega)
        rcases hresp : gs.getD (page - 1) ([], 0, 0) with ⟨prods, tot, tp⟩
        simp only [bulk_exit, hresp] at hstep
        push_neg at hstep
        obtain ⟨hne, htp, hlen⟩ := hstep
        simp only [fetch_all_loop, get_page_map_ok, hresp]
        split
        · rename_i hempty; exact absurd hempty hne
        · split
          · rename_i hcond
            exfalso
            rcases Bool.or_eq_true_iff.mp hcond with h | h
            · exact absurd (of_decide_eq_true h) (by omega)
            · exact absurd (of_decide_eq_true h) (by omega)
          · obtain ⟨s2, d2, heq, hst, hpf⟩ := ih (page + 1) f _ _
              (by omega) (by omega)
              (fun q hq1 hq2 => hmin q (by omega) (by omega))
              (by rw [show page + 1 + k = page + (k + 1) from by omega]
                  exact hexit)
            refine ⟨s2, d2, heq, ?_, ?_⟩
            · rw [hst]
              by_cases hp1 : page = 1 <;> simp [hp1]
            · rw [hpf,
                show page + 1 + k - 1 = page + (k + 1) - 1 from by omega]
              have hone : ∀ (s : SyncStats),
                  ((if page = 1 then { s with total_products := tot }
                    else s)).pages_fetched = s.pages_fetched := by
                intro s; by_cases hp1 : page = 1 <;> simp [hp1]
              by_cases hp1 : page = 1 <;> simp [hp1] <;> omega

/-- C5: against an all-successes remote, the bulk sync terminates cleanly
exactly at the first page where the loop's exit condition holds — no
items, page counter at the reported total page count, or a short page —
stamping the store's last-synced time; `pages_fetched` is one per
non-empty page processed: all of pages `1 .. pstar - 1` plus the stop
page when it was non-empty. -/
theorem c5_pagination_termination :
    ∀ (gs : List (List ProductPayload × Nat × Nat)) (per_page : Nat)
      (store : WooCommerceStore)
      (embFor : ProductPayload → Option (List Int)) (db : ProductDB)
      (now : Nat) (pstar : Nat),
      1 ≤ pstar →
      (∀ q, q < pstar → 1 ≤ q → ¬ bulk_exit gs per_page q) →
      bulk_exit gs per_page pstar →
      ∃ stats2 db2,
        fetch_all_products_from_woocommerce (gs.map Except.ok) per_page
            store embFor db now
          = (stats2, db2, { store with last_synced_at := some now }) ∧
        stats2.status = "completed" ∧
        stats2.pages_fetched = (pstar - 1) +
          (if (gs.getD (pstar - 1) ([], 0, 0)).1 = [] then 0 else 1) := by
  intro gs per_page store embFor db now pstar hp hmin hexit
  have hbound : pstar ≤ gs.length + 1 := by
    by_contra hgt
    push_neg at hgt
    refine hmin (gs.length + 1) (by omega) (by omega) (Or.inl ?_)
    rw [List.getD_eq_default _ _ (by omega)]
  obtain ⟨k, rfl⟩ : ∃ k, pstar = 1 + k := ⟨pstar - 1, by omega⟩
  obtain ⟨s2, d2, heq, hst, hpf⟩ := fetch_all_loop_exit_aux gs per_page store
    embFor now k 1 ((gs.map Except.ok).length + 1)
    { status := "completed", total_products := 0, synced_count := 0,
      created_count := 0, updated_count := 0, failed_count := 0,
      pages_fetched := 0, error := none } db
    (le_refl _) (by simp; omega) (fun q h1 h2 => hmin q h2 h1) hexit
  refine ⟨s2, d2, ?_, by rw [hst], ?_⟩
  · simp only [fetch_all_products_from_woocommerce]
    rw [heq]
  · rw [hpf]
    simp [Nat.add_sub_cancel_left]

/-- Witness for C5: the spec's decreasing-pages scenario — a full page of
two items then a short page of one with `per_page = 2` — stops exactly at
page 2 with two pages fetched. -/
theorem c5_pagination_termination_witness :
    ∃ stats2 db2,
      fetch_all_products_from_woocommerce
          ([([p0, p1], 3, 3), ([p2], 3, 3)].map Except.ok) 2 store0
          (fun _ => none) [] 7
        = (stats2, db2, { store0 with last_synced_at := some 7 }) ∧
      stats2.status = "completed" ∧
      stats2.pages_fetched = 1 +
        (if ([([p0, p1], 3, 3), ([p2], 3, 3)].getD 1 ([], 0, 0)).1 = []
         then 0 else 1) :=
  c5_pagination_termination [([p0, p1], 3, 3), ([p2], 3, 3)] 2 store0
    (fun _ => none) [] 7 2 (by decide)
    (by decide)
    (by decide)

/-! ## C3 — what the daily scheduler job actually runs -/

/-- C3 counterexample: one active, verified store whose remote catalog is
empty, and one locally active product.  The reconcile operation of the
`/reconcile` endpoint soft-deletes the product by absence, but the daily
job leaves it active — the job runs the bulk sync driver, not the
reconciliation driver with its absence-based soft-delete pass. -/
theorem c3_job_without_absence_delete_counterexample :
    ((reconciliation_job [store0] (fun _ => []) 100 (fun _ => none)
        [row0] 9).getD 0 default).is_deleted = 0 ∧
    (((reconcile_products [] store0 [row0] 9).2).getD 0 default).is_deleted
        = 1 := by
  decide

/-- C3 amended: the daily job drops stores that are not both active and
verified, and processes each store that is both through
`fetch_all_products_from_woocommerce` (the bulk sync driver, with no
absence-based soft-delete pass); the second equation holds whatever that
store's sync returns — also when its remote pages error out and the sync
reports `failed` — so one store's failure never prevents the remaining
stores from being processed. -/
theorem c3_job_bulk_syncs_active_verified :
    (∀ (s : WooCommerceStore) (stores : List WooCommerceStore)
        (pagesFor : WooCommerceStore → List PageResp) (per_page : Nat)
        (embFor : ProductPayload → Option (List Int)) (db : ProductDB)
        (now : Nat),
        s.is_active ≠ 1 ∨ s.is_verified ≠ 1 →
          reconciliation_job (s :: stores) pagesFor per_page embFor db now =
            reconciliation_job stores pagesFor per_page embFor db now)
    ∧ (∀ (s : WooCommerceStore) (stores : List WooCommerceStore)
        (pagesFor : WooCommerceStore → List PageResp) (per_page : Nat)
        (embFor : ProductPayload → Option (List Int)) (db : ProductDB)
        (now : Nat),
        s.is_active = 1 → s.is_verified = 1 →
          reconciliation_job (s :: stores) pagesFor per_page embFor db now =
            reconciliation_job stores pagesFor per_page embFor
              (fetch_all_products_from_woocommerce (pagesFor s) per_page s
                embFor db now).2.1 now) := by
  constructor
  · intro s stores pagesFor per_page embFor db now h
    unfold reconciliation_job
    rw [List.filter_cons]
    have hpred : (s.is_active == 1 && s.is_verified == 1) = false := by
      rcases h with h | h <;> simp [h]
    simp only [hpred, Bool.false_eq_true, if_false]
  · intro s stores pagesFor per_page embFor db now h1 h2
    unfold reconciliation_job
    rw [List.filter_cons]
    have hpred : (s.is_active == 1 && s.is_verified == 1) = true := by
      simp [h1, h2]
    simp only [hpred, if_true]
    rfl

/-- Witness for C3 amended: a deactivated store contributes nothing to the
job. -/
theorem c3_job_bulk_syncs_active_verified_witness :
    reconciliation_job [{ store0 with is_active := 0 }] (fun _ => []) 100
        (fun _ => none) [row0] 9 =
      reconciliation_job [] (fun _ => []) 100 (fun _ => none) [row0] 9 :=
  c3_job_bulk_syncs_active_verified.1 { store0 with is_active := 0 } []
    (fun _ => []) 100 (fun _ => none) [row0] 9 (Or.inl (by decide))

end WooSync
